import Mathlib

/-!
Verification of the persistence and session-timing core of the IronLog
workout-planner application (src/timer.py, src/models.py, src/db.py,
src/migrations.py, src/repositories.py).

The embedding is shallow: the SQLite store is a record of insertion-ordered
row lists, each SQL statement executed by the repositories and migrations is
a constructor of an explicit statement type whose semantics (`execStmt`)
mirrors the statement's SQL (primary-key conflicts, foreign-key checks,
ON CONFLICT clauses, cascades), and `Database.transaction` reproduces the
commit-on-success / rollback-and-reraise scope of db.py.  Wall-clock values
(datetime.now()) are passed to the timer operations as explicit rational
arguments; this is exactly the virtual clock of timer.py's MockTimer, whose
_calculate_elapsed performs the same computation as Timer._calculate_elapsed
with the mock time substituted for datetime.now().
-/

namespace IronLog

/-- Python int() applied to a rational: truncation toward zero.
Int.div rounds toward zero, matching CPython's int() on a float. -/
def pyInt (q : ℚ) : ℤ := Int.tdiv q.num q.den

/-- TimerState (src/models.py lines 198-217).  Timestamps are rationals
(seconds on the wall clock); accumulated_seconds is the float field of the
dataclass, likewise modelled as a rational. -/
structure TimerState where
  is_running : Bool
  is_paused : Bool
  start_time : Option ℚ
  pause_time : Option ℚ
  accumulated_seconds : ℚ
deriving Repr, DecidableEq

/-- TimerState.initial (src/models.py lines 208-217). -/
def TimerState.initial : TimerState :=
  { is_running := false
    is_paused := false
    start_time := none
    pause_time := none
    accumulated_seconds := 0 }

/-- Timer._calculate_elapsed (src/timer.py lines 64-78); identical to
MockTimer._calculate_elapsed (lines 188-203) with `now` playing the role of
datetime.now() resp. the mock time. -/
def calculateElapsed (st : TimerState) (now : ℚ) : ℚ :=
  if !st.is_running then st.accumulated_seconds
  else if st.is_paused then st.accumulated_seconds
  else
    match st.start_time with
    | none => st.accumulated_seconds
    | some t0 => st.accumulated_seconds + (now - t0)

/-- Timer.elapsed_seconds property (src/timer.py lines 54-57):
int(self._calculate_elapsed()). -/
def elapsedSeconds (st : TimerState) (now : ℚ) : ℤ :=
  pyInt (calculateElapsed st now)

/-- Timer.start (src/timer.py lines 80-93); `now` is the value of
datetime.now() at the call. -/
def Timer.start (st : TimerState) (now : ℚ) : TimerState :=
  if st.is_running then st
  else
    { is_running := true
      is_paused := false
      start_time := some now
      pause_time := none
      accumulated_seconds := 0 }

/-- Timer.pause (src/timer.py lines 95-111). -/
def Timer.pause (st : TimerState) (now : ℚ) : TimerState :=
  if !st.is_running || st.is_paused then st
  else
    { is_running := true
      is_paused := true
      start_time := st.start_time
      pause_time := some now
      accumulated_seconds := calculateElapsed st now }

/-- Timer.resume (src/timer.py lines 113-126). -/
def Timer.resume (st : TimerState) (now : ℚ) : TimerState :=
  if !st.is_paused then st
  else
    { is_running := true
      is_paused := false
      start_time := some now
      pause_time := none
      accumulated_seconds := st.accumulated_seconds }

/-- Timer.stop (src/timer.py lines 128-139): returns the final elapsed
seconds and resets the state to TimerState.initial. -/
def Timer.stop (st : TimerState) (now : ℚ) : ℤ × TimerState :=
  (elapsedSeconds st now, TimerState.initial)



/-! ### Stable sorting, modelling SQL ORDER BY on insertion-ordered tables

SQLite scans a table in rowid (insertion) order and ORDER BY is modelled as
a stable sort over that order, so rows with equal keys keep their insertion
order (one legitimate refinement of SQLite's unspecified tie order; the
theorems below rely only on tie-independent consequences). -/

/-- Insert an element in front of the first element it is le-related to. -/
def insertOrd (le : α → α → Bool) (a : α) : List α → List α
  | [] => [a]
  | b :: l => if le a b then a :: b :: l else b :: insertOrd le a l

/-- Stable insertion sort. -/
def sortBy (le : α → α → Bool) : List α → List α
  | [] => []
  | a :: l => insertOrd le a (sortBy le l)

/-- Boolean check that a list is already sorted (non-strictly) by its key. -/
def sortedByB (le : α → α → Bool) : List α → Bool
  | [] => true
  | [_] => true
  | a :: b :: l => le a b && sortedByB le (b :: l)

/-- Boolean check that the String keys of a list are pairwise distinct. -/
def nodupBy (key : α → String) : List α → Bool
  | [] => true
  | a :: l => !(l.any fun b => key b == key a) && nodupBy key l

/-! ### The relational store (schema of src/migrations.py, migration 001) -/

/-- Row of workout_templates(id PK, name, created_at). -/
structure TemplateRow where
  id : String
  name : String
  created_at : Int
deriving Repr, DecidableEq

/-- Row of template_exercises(id PK, template_id FK CASCADE, name,
order_index, uses_weight). uses_weight is the INTEGER column (0/1). -/
structure TemplateExerciseRow where
  id : String
  template_id : String
  name : String
  order_index : Int
  uses_weight : Int
deriving Repr, DecidableEq

/-- Row of workout_sessions(id PK, template_id FK SET NULL, template_name,
started_at, ended_at, duration_seconds, notes). -/
structure SessionRow where
  id : String
  template_id : Option String
  template_name : Option String
  started_at : Int
  ended_at : Option Int
  duration_seconds : Option Int
  notes : Option String
deriving Repr, DecidableEq

/-- Row of session_exercises(id PK, session_id FK CASCADE, name,
order_index, uses_weight). -/
structure SessionExerciseRow where
  id : String
  session_id : String
  name : String
  order_index : Int
  uses_weight : Int
deriving Repr, DecidableEq

/-- Row of sets(id PK, session_exercise_id FK CASCADE, reps, weight REAL
NULLABLE, created_at). -/
structure SetRow where
  id : String
  session_exercise_id : String
  reps : Int
  weight : Option ℚ
  created_at : Int
deriving Repr, DecidableEq

/-- The embedded SQLite store: one insertion-ordered row list per table,
plus existence flags for the tables created by the migrations
(schema_version by apply_migrations, the six data tables by migration 001;
they are created together in one transaction, hence one flag). -/
structure Store where
  schema_version_table : Bool
  data_tables : Bool
  schema_version : List (Nat × Int)
  workout_templates : List TemplateRow
  template_exercises : List TemplateExerciseRow
  workout_sessions : List SessionRow
  session_exercises : List SessionExerciseRow
  sets : List SetRow
  app_state : List (String × String)
deriving Repr, DecidableEq

/-- The store of a freshly created database file, before any migration. -/
def emptyStore : Store :=
  { schema_version_table := false
    data_tables := false
    schema_version := []
    workout_templates := []
    template_exercises := []
    workout_sessions := []
    session_exercises := []
    sets := []
    app_state := [] }

/-- Errors raised by SQL statement execution (sqlite3.OperationalError for a
missing table, sqlite3.IntegrityError for primary/foreign key violations). -/
inductive DbError where
  | missingTable (table : String)
  | pkViolation (table : String)
  | fkViolation (table : String)
deriving Repr, DecidableEq

/-- The write statements issued by the repositories (src/repositories.py)
and the migrations (src/migrations.py), one constructor per SQL statement
shape, carrying the bound parameters. -/
inductive Stmt where
  /-- INSERT INTO workout_templates ... ON CONFLICT(id) DO UPDATE SET
  name = excluded.name  (TemplateRepository.save). -/
  | insertTemplateUpsertName (id name : String) (created_at : Int)
  /-- DELETE FROM template_exercises WHERE template_id = ?
  (TemplateRepository.save). -/
  | deleteTemplateExercises (template_id : String)
  /-- INSERT INTO template_exercises (plain insert, TemplateRepository.save
  and migration 002). -/
  | insertTemplateExercise (id template_id name : String)
      (order_index uses_weight : Int)
  /-- DELETE FROM workout_templates WHERE id = ? (TemplateRepository.delete);
  cascades to template_exercises, sets workout_sessions.template_id NULL. -/
  | deleteTemplate (id : String)
  /-- INSERT INTO workout_sessions ... ON CONFLICT(id) DO UPDATE SET
  template_id, template_name, ended_at, duration_seconds, notes
  (SessionRepository.save). -/
  | upsertSession (row : SessionRow)
  /-- INSERT INTO session_exercises ... ON CONFLICT(id) DO UPDATE SET
  name, order_index, uses_weight (SessionRepository.save_exercise). -/
  | upsertSessionExercise (row : SessionExerciseRow)
  /-- DELETE FROM session_exercises WHERE id = ?
  (SessionRepository.delete_exercise); cascades to sets. -/
  | deleteSessionExercise (id : String)
  /-- INSERT INTO sets ... ON CONFLICT(id) DO UPDATE SET reps = excluded.reps,
  weight = excluded.weight (SessionRepository.save_set). -/
  | upsertSet (row : SetRow)
  /-- DELETE FROM sets WHERE id = ? (SessionRepository.delete_set). -/
  | deleteSet (id : String)
  /-- UPDATE workout_sessions SET ended_at = ?, duration_seconds = ?
  WHERE id = ? (SessionRepository.end_session). -/
  | updateSessionEnd (id : String) (ended_at duration_seconds : Int)
  /-- DELETE FROM workout_sessions WHERE id = ? (SessionRepository.delete);
  cascades to session_exercises and their sets. -/
  | deleteSession (id : String)
  /-- INSERT INTO app_state ... ON CONFLICT(key) DO UPDATE SET value
  (AppStateRepository.set). -/
  | upsertAppState (key value : String)
  /-- DELETE FROM app_state WHERE key = ? (AppStateRepository.delete). -/
  | deleteAppState (key : String)
  /-- DELETE FROM app_state (AppStateRepository.clear_all). -/
  | deleteAllAppState
  /-- CREATE TABLE IF NOT EXISTS schema_version (apply_migrations). -/
  | createSchemaVersionTable
  /-- INSERT INTO schema_version (version, applied_at) VALUES (?, ?)
  (plain insert, apply_migrations). -/
  | insertSchemaVersion (version : Nat) (applied_at : Int)
  /-- CREATE TABLE IF NOT EXISTS for the six data tables plus the four
  indexes (migration 001, one transaction). -/
  | createDataTables
  /-- INSERT INTO workout_templates (plain insert, migration 002). -/
  | insertTemplatePlain (id name : String) (created_at : Int)
deriving Repr, DecidableEq

/-- The foreign-key condition on workout_sessions.template_id: NULL, or a
reference to an existing template row. -/
def templateLinkOk (s : Store) : Option String → Bool
  | none => true
  | some tid => s.workout_templates.any (fun r => r.id == tid)

/-- Execute one SQL statement on the store.  Primary-key conflicts on plain
inserts and foreign-key violations (PRAGMA foreign_keys = ON) raise; ON
CONFLICT clauses update exactly the columns their SQL names; deletes apply
the referential actions declared in the schema (CASCADE / SET NULL). -/
def execStmt (s : Store) : Stmt → Except DbError Store
  | .insertTemplateUpsertName id name created_at =>
    if !s.data_tables then .error (.missingTable "workout_templates")
    else if s.workout_templates.any (fun r => r.id == id) then
      .ok { s with workout_templates := s.workout_templates.map (fun r =>
          if r.id == id then { r with name := name } else r) }
    else
      .ok { s with workout_templates :=
          s.workout_templates ++ [⟨id, name, created_at⟩] }
  | .deleteTemplateExercises template_id =>
    if !s.data_tables then .error (.missingTable "template_exercises")
    else
      .ok { s with template_exercises := s.template_exercises.filter (fun r =>
        !(r.template_id == template_id)) }
  | .insertTemplateExercise id template_id name order_index uses_weight =>
    if !s.data_tables then .error (.missingTable "template_exercises")
    else if s.template_exercises.any (fun r => r.id == id) then
      .error (.pkViolation "template_exercises")
    else if !(s.workout_templates.any fun r => r.id == template_id) then
      .error (.fkViolation "template_exercises")
    else
      .ok { s with template_exercises := s.template_exercises ++
          [⟨id, template_id, name, order_index, uses_weight⟩] }
  | .deleteTemplate id =>
    if !s.data_tables then .error (.missingTable "workout_templates")
    else
      .ok { s with
        workout_templates := s.workout_templates.filter (fun r => !(r.id == id))
        template_exercises :=
          s.template_exercises.filter (fun r => !(r.template_id == id))
        workout_sessions := s.workout_sessions.map (fun r =>
          if r.template_id == some id then { r with template_id := none } else r) }
  | .upsertSession row =>
    if !s.data_tables then .error (.missingTable "workout_sessions")
    else if !(templateLinkOk s row.template_id) then
      .error (.fkViolation "workout_sessions")
    else if s.workout_sessions.any (fun r => r.id == row.id) then
      .ok { s with workout_sessions := s.workout_sessions.map (fun r =>
          if r.id == row.id then
            { r with template_id := row.template_id,
                     template_name := row.template_name,
                     ended_at := row.ended_at,
                     duration_seconds := row.duration_seconds,
                     notes := row.notes }
          else r) }
    else
      .ok { s with workout_sessions := s.workout_sessions ++ [row] }
  | .upsertSessionExercise row =>
    if !s.data_tables then .error (.missingTable "session_exercises")
    else if s.session_exercises.any (fun r => r.id == row.id) then
      .ok { s with session_exercises := s.session_exercises.map (fun r =>
          if r.id == row.id then
            { r with name := row.name, order_index := row.order_index,
                     uses_weight := row.uses_weight }
          else r) }
    else if !(s.workout_sessions.any fun r => r.id == row.session_id) then
      .error (.fkViolation "session_exercises")
    else
      .ok { s with session_exercises := s.session_exercises ++ [row] }
  | .deleteSessionExercise id =>
    if !s.data_tables then .error (.missingTable "session_exercises")
    else
      .ok { s with
        session_exercises := s.session_exercises.filter (fun r => !(r.id == id))
        sets := s.sets.filter (fun r => !(r.session_exercise_id == id)) }
  | .upsertSet row =>
    if !s.data_tables then .error (.missingTable "sets")
    else if s.sets.any (fun r => r.id == row.id) then
      .ok { s with sets := s.sets.map (fun r =>
          if r.id == row.id then
            { r with reps := row.reps, weight := row.weight }
          else r) }
    else if !(s.session_exercises.any fun r => r.id == row.session_exercise_id) then
      .error (.fkViolation "sets")
    else
      .ok { s with sets := s.sets ++ [row] }
  | .deleteSet id =>
    if !s.data_tables then .error (.missingTable "sets")
    else .ok { s with sets := s.sets.filter (fun r => !(r.id == id)) }
  | .updateSessionEnd id ended_at duration_seconds =>
    if !s.data_tables then .error (.missingTable "workout_sessions")
    else
      .ok { s with workout_sessions := s.workout_sessions.map (fun r =>
          if r.id == id then
            { r with ended_at := some ended_at,
                     duration_seconds := some duration_seconds }
          else r) }
  | .deleteSession id =>
    if !s.data_tables then .error (.missingTable "workout_sessions")
    else
      .ok { s with
        workout_sessions := s.workout_sessions.filter (fun r => !(r.id == id))
        session_exercises :=
          s.session_exercises.filter (fun r => !(r.session_id == id))
        sets := s.sets.filter (fun r =>
          !(s.session_exercises.any fun se =>
              se.session_id == id && se.id == r.session_exercise_id)) }
  | .upsertAppState key value =>
    if !s.data_tables then .error (.missingTable "app_state")
    else if s.app_state.any (fun kv => kv.1 == key) then
      .ok { s with app_state := s.app_state.map (fun kv =>
        if kv.1 == key then (kv.1, value) else kv) }
    else
      .ok { s with app_state := s.app_state ++ [(key, value)] }
  | .deleteAppState key =>
    if !s.data_tables then .error (.missingTable "app_state")
    else .ok { s with app_state := s.app_state.filter (fun kv => !(kv.1 == key)) }
  | .deleteAllAppState =>
    if !s.data_tables then .error (.missingTable "app_state")
    else .ok { s with app_state := [] }
  | .createSchemaVersionTable =>
    .ok { s with schema_version_table := true }
  | .insertSchemaVersion version applied_at =>
    if !s.schema_version_table then .error (.missingTable "schema_version")
    else if s.schema_version.any (fun r => r.1 == version) then
      .error (.pkViolation "schema_version")
    else .ok { s with schema_version := s.schema_version ++ [(version, applied_at)] }
  | .createDataTables =>
    .ok { s with data_tables := true }
  | .insertTemplatePlain id name created_at =>
    if !s.data_tables then .error (.missingTable "workout_templates")
    else if s.workout_templates.any (fun r => r.id == id) then
      .error (.pkViolation "workout_templates")
    else
      .ok { s with workout_templates :=
          s.workout_templates ++ [⟨id, name, created_at⟩] }

/-- Execute a list of statements in order, stopping at the first error
(inside a transaction body, the first raising cursor.execute aborts the
rest of the scope). -/
def execStmts : List Stmt → Store → Except DbError Store
  | [], s => .ok s
  | stmt :: rest, s =>
    match execStmt s stmt with
    | .ok s1 => execStmts rest s1
    | .error e => .error e

/-- Database.transaction (src/db.py lines 89-109): run the scope's
statements; commit the resulting store on success, roll the store back to
its entry value and re-raise the original exception on failure. -/
def Database.transaction (stmts : List Stmt) (s : Store) : Store × Option DbError :=
  match execStmts stmts s with
  | .ok s1 => (s1, none)
  | .error e => (s, some e)

/-! ### Domain models (src/models.py) -/

/-- TemplateExercise dataclass (src/models.py lines 145-170). -/
structure TemplateExercise where
  id : String
  template_id : String
  name : String
  order_index : Int
  uses_weight : Bool
deriving Repr, DecidableEq

/-- WorkoutTemplate dataclass (src/models.py lines 173-195). -/
structure WorkoutTemplate where
  id : String
  name : String
  created_at : Int
  exercises : List TemplateExercise
deriving Repr, DecidableEq

/-- Set dataclass (src/models.py lines 9-33). -/
structure Set where
  id : String
  session_exercise_id : String
  reps : Int
  weight : Option ℚ
  created_at : Int
deriving Repr, DecidableEq

/-- SessionExercise dataclass (src/models.py lines 36-79). -/
structure SessionExercise where
  id : String
  session_id : String
  name : String
  order_index : Int
  uses_weight : Bool
  sets : List Set
deriving Repr, DecidableEq

/-- WorkoutSession dataclass (src/models.py lines 82-142). -/
structure WorkoutSession where
  id : String
  template_id : Option String
  template_name : Option String
  started_at : Int
  ended_at : Option Int
  duration_seconds : Option Int
  notes : Option String
  exercises : List SessionExercise
deriving Repr, DecidableEq

/-- bool(i) on the INTEGER uses_weight column. -/
def intToBool (i : Int) : Bool := !(i == 0)

/-- The value 1 if b else 0 bound for the uses_weight column. -/
def boolToInt (b : Bool) : Int := if b then 1 else 0

/-! ### ORDER BY comparators -/

/-- ORDER BY order_index on template_exercises. -/
def leOrderTE (a b : TemplateExerciseRow) : Bool :=
  decide (a.order_index ≤ b.order_index)

/-- ORDER BY order_index on session_exercises. -/
def leOrderSE (a b : SessionExerciseRow) : Bool :=
  decide (a.order_index ≤ b.order_index)

/-- ORDER BY created_at (ascending) on sets. -/
def leCreatedSet (a b : SetRow) : Bool :=
  decide (a.created_at ≤ b.created_at)

/-- ORDER BY created_at DESC on sets. -/
def descCreatedSet (a b : SetRow) : Bool :=
  decide (b.created_at ≤ a.created_at)

/-- ORDER BY version DESC on schema_version. -/
def descVersion (a b : Nat × Int) : Bool :=
  decide (b.1 ≤ a.1)

/-! ### TemplateRepository (src/repositories.py lines 19-171) -/

namespace TemplateRepository

/-- Reconstruction of a TemplateExercise from its row (lines 99-108):
UUID round-trips through str, uses_weight through bool(...). -/
def rowToExercise (r : TemplateExerciseRow) : TemplateExercise :=
  ⟨r.id, r.template_id, r.name, r.order_index, intToBool r.uses_weight⟩

/-- TemplateRepository.get_by_id (lines 72-110). -/
def get_by_id (s : Store) (template_id : String) : Option WorkoutTemplate :=
  match s.workout_templates.find? (fun r => r.id == template_id) with
  | none => none
  | some row =>
    some { id := row.id
           name := row.name
           created_at := row.created_at
           exercises := (sortBy leOrderTE (s.template_exercises.filter
             (fun r => r.template_id == template_id))).map rowToExercise }

/-- The statements executed inside the transaction of
TemplateRepository.save (lines 112-144): upsert the parent row, delete all
children of the template id, re-insert the in-memory child list (the
inserted template_id column is str(template.id), not the child's own
back-reference). -/
def saveStmts (t : WorkoutTemplate) : List Stmt :=
  Stmt.insertTemplateUpsertName t.id t.name t.created_at ::
  Stmt.deleteTemplateExercises t.id ::
  t.exercises.map (fun e =>
    Stmt.insertTemplateExercise e.id t.id e.name e.order_index
      (boolToInt e.uses_weight))

/-- TemplateRepository.save (lines 112-144). -/
def save (s : Store) (t : WorkoutTemplate) : Store × Option DbError :=
  Database.transaction (saveStmts t) s

end TemplateRepository

/-! ### SessionRepository (src/repositories.py lines 174-418) -/

namespace SessionRepository

/-- Reconstruction of a Set from its row (lines 290-299). -/
def rowToSet (r : SetRow) : Set :=
  ⟨r.id, r.session_exercise_id, r.reps, r.weight, r.created_at⟩

/-- SessionRepository._row_to_session (lines 244-255), exercises empty. -/
def rowToSession (r : SessionRow) : WorkoutSession :=
  ⟨r.id, r.template_id, r.template_name, r.started_at, r.ended_at,
    r.duration_seconds, r.notes, []⟩

/-- The sets of one exercise: SELECT ... WHERE session_exercise_id = ?
ORDER BY created_at (lines 280-299). -/
def loadSets (s : Store) (exercise_id : String) : List Set :=
  (sortBy leCreatedSet (s.sets.filter
    (fun r => r.session_exercise_id == exercise_id))).map rowToSet

/-- SessionRepository._load_exercises (lines 257-301). -/
def loadExercises (s : Store) (session_id : String) : List SessionExercise :=
  (sortBy leOrderSE (s.session_exercises.filter
    (fun r => r.session_id == session_id))).map
    (fun r => ⟨r.id, r.session_id, r.name, r.order_index,
      intToBool r.uses_weight, loadSets s r.id⟩)

/-- SessionRepository.get_by_id (lines 203-221). -/
def get_by_id (s : Store) (session_id : String) : Option WorkoutSession :=
  match s.workout_sessions.find? (fun r => r.id == session_id) with
  | none => none
  | some row =>
    some { rowToSession row with exercises := loadExercises s session_id }

/-- The row bound by SessionRepository.save (lines 303-327). -/
def sessionRowOf (sess : WorkoutSession) : SessionRow :=
  ⟨sess.id, sess.template_id, sess.template_name, sess.started_at,
    sess.ended_at, sess.duration_seconds, sess.notes⟩

/-- SessionRepository.save (lines 303-327). -/
def save (s : Store) (sess : WorkoutSession) : Store × Option DbError :=
  Database.transaction [Stmt.upsertSession (sessionRowOf sess)] s

/-- The row bound by SessionRepository.save_exercise (lines 329-348). -/
def exerciseRowOf (ex : SessionExercise) : SessionExerciseRow :=
  ⟨ex.id, ex.session_id, ex.name, ex.order_index, boolToInt ex.uses_weight⟩

/-- SessionRepository.save_exercise (lines 329-348). -/
def save_exercise (s : Store) (ex : SessionExercise) : Store × Option DbError :=
  Database.transaction [Stmt.upsertSessionExercise (exerciseRowOf ex)] s

/-- The row bound by SessionRepository.save_set (lines 358-376). -/
def setRowOf (w : Set) : SetRow :=
  ⟨w.id, w.session_exercise_id, w.reps, w.weight, w.created_at⟩

/-- SessionRepository.save_set (lines 358-376). -/
def save_set (s : Store) (w : Set) : Store × Option DbError :=
  Database.transaction [Stmt.upsertSet (setRowOf w)] s

/-- SessionRepository.end_session (lines 383-393); `now` is datetime.now()
at the call. -/
def end_session (s : Store) (session_id : String) (duration_seconds : Int)
    (now : Int) : Store × Option DbError :=
  Database.transaction [Stmt.updateSessionEnd session_id now duration_seconds] s

/-- The FROM/JOIN/WHERE part of get_last_weight_for_exercise (lines
403-418): the rows of sets that join (on the session_exercises primary
key) with an exercise of the queried name and have non-NULL weight. -/
def joinedSets (s : Store) (exercise_name : String) : List SetRow :=
  s.sets.filter (fun st =>
    st.weight.isSome && s.session_exercises.any (fun se =>
      se.id == st.session_exercise_id && se.name == exercise_name))

/-- SessionRepository.get_last_weight_for_exercise (lines 403-418): the
joined rows ordered by created_at descending; the first row's weight, or
None when there is no row. -/
def get_last_weight_for_exercise (s : Store) (exercise_name : String) :
    Option ℚ :=
  match (sortBy descCreatedSet (joinedSets s exercise_name)).head? with
  | some r => r.weight
  | none => none

/-- Persist a list of sets via repeated save_set calls, stopping at the
first error. -/
def saveSets (s : Store) : List Set → Store × Option DbError
  | [] => (s, none)
  | w :: rest =>
    match save_set s w with
    | (s1, none) => saveSets s1 rest
    | (s1, some e) => (s1, some e)

/-- Persist exercises via save_exercise, each followed by its sets. -/
def saveExercises (s : Store) : List SessionExercise → Store × Option DbError
  | [] => (s, none)
  | ex :: rest =>
    match save_exercise s ex with
    | (s1, none) =>
      match saveSets s1 ex.sets with
      | (s2, none) => saveExercises s2 rest
      | r => r
    | (s1, some e) => (s1, some e)

/-- The per-child save sequence for a whole session aggregate: save the
parent row, then each exercise followed by its sets, in aggregate order. -/
def saveAggregate (s : Store) (sess : WorkoutSession) : Store × Option DbError :=
  match save s sess with
  | (s1, none) => saveExercises s1 sess.exercises
  | r => r

end SessionRepository

/-! ### Migrations (src/migrations.py) -/

/-- migration_001_initial_schema (lines 12-118): CREATE TABLE IF NOT EXISTS
for the six data tables and their indexes, one transaction. -/
def migration_001_initial_schema (s : Store) : Store × Option DbError :=
  Database.transaction [Stmt.createDataTables] s

/-- The seed data of migration_002_seed_templates (lines 126-157). -/
def seedData : List (String × List (String × Bool)) :=
  [("Push Day",
    [("Bench Press", true), ("Overhead Press", true),
     ("Incline Dumbbell Press", true), ("Tricep Pushdowns", true),
     ("Lateral Raises", true)]),
   ("Pull Day",
    [("Deadlift", true), ("Barbell Rows", true), ("Pull-ups", false),
     ("Face Pulls", true), ("Bicep Curls", true)]),
   ("Leg Day",
    [("Squats", true), ("Romanian Deadlifts", true), ("Leg Press", true),
     ("Leg Curls", true), ("Calf Raises", true)])]

/-- The statements seeding one template: insert the parent, then each
exercise with order_index = its position (lines 159-178).  Fresh uuid4()
results are drawn from `supply` in creation order: the template id at
index `base`, exercise ids at the following indices. -/
def seedOne (supply : Nat → String) (now : Int) (base : Nat) (name : String)
    (exercises : List (String × Bool)) : List Stmt :=
  Stmt.insertTemplatePlain (supply base) name now ::
  exercises.enum.map (fun p =>
    Stmt.insertTemplateExercise (supply (base + 1 + p.1)) (supply base) p.2.1
      (Int.ofNat p.1) (boolToInt p.2.2))

/-- All statements of migration_002_seed_templates's transaction. -/
def seedStmts (supply : Nat → String) (now : Int) : List Stmt :=
  seedOne supply now 0 "Push Day" (seedData.get! 0).2 ++
  seedOne supply now 6 "Pull Day" (seedData.get! 1).2 ++
  seedOne supply now 12 "Leg Day" (seedData.get! 2).2

/-- migration_002_seed_templates (lines 121-178), one transaction. -/
def migration_002_seed_templates (supply : Nat → String) (now : Int)
    (s : Store) : Store × Option DbError :=
  Database.transaction (seedStmts supply now) s

/-- The MIGRATIONS list (lines 182-185). -/
def MIGRATIONS (supply : Nat → String) (now : Int) :
    List (Nat × (Store → Store × Option DbError)) :=
  [(1, migration_001_initial_schema), (2, migration_002_seed_templates supply now)]

/-- get_current_version (lines 188-211): 0 when the schema_version table
does not exist or is empty, otherwise SELECT version ... ORDER BY version
DESC LIMIT 1. -/
def get_current_version (s : Store) : Nat :=
  if !s.schema_version_table then 0
  else
    match (sortBy descVersion s.schema_version).head? with
    | some r => r.1
    | none => 0

/-- The migration loop of apply_migrations (lines 234-249): for each
migration whose version exceeds the current version, run its body, then
record the version in the ledger, each as its own transaction; any failure
propagates.  The returned list records the versions whose bodies were
invoked (the "Applying migration" log lines). -/
def runPending :
    List (Nat × (Store → Store × Option DbError)) → Nat → Int → Store →
      (Store × Option DbError) × List Nat
  | [], _, _, s => ((s, none), [])
  | (version, body) :: rest, current, now, s =>
    if current < version then
      match body s with
      | (s1, some e) => ((s1, some e), [version])
      | (s1, none) =>
        match Database.transaction [Stmt.insertSchemaVersion version now] s1 with
        | (s2, some e) => ((s2, some e), [version])
        | (s2, none) =>
          match runPending rest current now s2 with
          | (res, applied) => (res, version :: applied)
    else runPending rest current now s

/-- apply_migrations (lines 214-249): ensure the ledger table exists (its
own transaction), read the current version once, then run the pending
migrations in order. -/
def apply_migrations (supply : Nat → String) (now : Int) (s : Store) :
    (Store × Option DbError) × List Nat :=
  match Database.transaction [Stmt.createSchemaVersionTable] s with
  | (s1, some e) => ((s1, some e), [])
  | (s1, none) => runPending (MIGRATIONS supply now) (get_current_version s1) now s1

/-! ### AppStateRepository.get_timer_state and its JSON layer -/

/-- JSON values, the result of a successful json.loads. -/
inductive Json where
  | null
  | bool (b : Bool)
  | num (q : ℚ)
  | str (s : String)
  | arr (elems : List Json)
  | obj (fields : List (String × Json))
deriving Repr

/-- The Python exception classes get_timer_state can encounter. -/
inductive PyError where
  | jsonDecodeError
  | keyError
  | valueError
  | typeError
deriving Repr, DecidableEq

/-- Python subscription data[k]: KeyError when the key is absent from a
dict, TypeError when the value is not a dict at all. -/
def Json.item (v : Json) (k : String) : Except PyError Json :=
  match v with
  | .obj fields =>
    match fields.lookup k with
    | some x => .ok x
    | none => .error .keyError
  | _ => .error .typeError

/-- Python truthiness of a JSON-decoded value (the `if data[...]` guards). -/
def Json.truthy : Json → Bool
  | .null => false
  | .bool b => b
  | .num q => !(q == 0)
  | .str s => !(s == "")
  | .arr elems => !elems.isEmpty
  | .obj fields => !fields.isEmpty

/-- Digit-string parser: the digits of a decimal natural number, or none
at the first non-digit character. -/
def parseNatAux : List Char → Nat → Option Nat
  | [], acc => some acc
  | c :: cs, acc =>
    if c.isDigit then parseNatAux cs (acc * 10 + (c.toNat - 48)) else none

/-- A timestamp string: nonempty and all decimal digits. -/
def parseTimestamp (s : String) : Option Nat :=
  match s.data with
  | [] => none
  | cs => parseNatAux cs 0

/-- Model of datetime.fromisoformat applied to a JSON-decoded value.  Only
strings can parse, and of the strings exactly the well-formed timestamp
strings succeed; timestamp strings are modelled as decimal digit strings
(epoch seconds), since only success/failure and the parsed instant matter
here.  A non-string raises TypeError and a malformed string raises
ValueError, as the library function does. -/
def fromisoformat (v : Json) : Except PyError ℚ :=
  match v with
  | .str s =>
    match parseTimestamp s with
    | some n => .ok (Int.ofNat n : ℤ)
    | none => .error .valueError
  | _ => .error .typeError

/-- The TimerState value built by get_timer_state: the Boolean and float
fields are taken from the decoded JSON with no type check or coercion, so
they stay raw JSON values here; the timestamp fields go through
fromisoformat. -/
structure RawTimerState where
  is_running : Json
  is_paused : Json
  start_time : Option ℚ
  pause_time : Option ℚ
  accumulated_seconds : Json
deriving Repr

/-- The body of the try block of AppStateRepository.get_timer_state
(src/repositories.py lines 481-497) after json.loads has yielded `data`:
field subscriptions and guarded fromisoformat calls in evaluation order. -/
def buildTimerState (data : Json) : Except PyError RawTimerState := do
  let r ← data.item "is_running"
  let p ← data.item "is_paused"
  let st ← data.item "start_time"
  let start_time ← if st.truthy then (fromisoformat st).map some else pure none
  let pt ← data.item "pause_time"
  let pause_time ← if pt.truthy then (fromisoformat pt).map some else pure none
  let acc ← data.item "accumulated_seconds"
  pure { is_running := r
         is_paused := p
         start_time := start_time
         pause_time := pause_time
         accumulated_seconds := acc }

/-- AppStateRepository.get_timer_state (lines 475-499) for a present
timer_state entry.  The stored string is represented by the outcome of
json.loads on it: `.error ()` for a string that is not valid JSON
(json.JSONDecodeError), `.ok data` otherwise.  The except clause catches
exactly json.JSONDecodeError and KeyError and returns None ("no saved
state"); any other exception escapes as `.error e`. -/
def get_timer_state (loaded : Except Unit Json) :
    Except PyError (Option RawTimerState) :=
  let body : Except PyError (Option RawTimerState) :=
    match loaded with
    | .error _ => .error .jsonDecodeError
    | .ok data => (buildTimerState data).map some
  match body with
  | .ok r => .ok r
  | .error .jsonDecodeError => .ok none
  | .error .keyError => .ok none
  | .error e => .error e

/-! ### Integrity invariant and aggregate well-formedness checkers -/

/-- The integrity invariant SQLite maintains on every reachable store:
unique primary keys per table, and foreign keys referencing existing rows
(PRAGMA foreign_keys = ON). -/
def Store.wfB (s : Store) : Bool :=
  nodupBy (fun r : TemplateRow => r.id) s.workout_templates &&
  nodupBy (fun r : TemplateExerciseRow => r.id) s.template_exercises &&
  nodupBy (fun r : SessionRow => r.id) s.workout_sessions &&
  nodupBy (fun r : SessionExerciseRow => r.id) s.session_exercises &&
  nodupBy (fun r : SetRow => r.id) s.sets &&
  s.template_exercises.all (fun e =>
    s.workout_templates.any (fun t => t.id == e.template_id)) &&
  s.workout_sessions.all (fun r =>
    match r.template_id with
    | none => true
    | some tid => s.workout_templates.any (fun t => t.id == tid)) &&
  s.session_exercises.all (fun e =>
    s.workout_sessions.any (fun r => r.id == e.session_id)) &&
  s.sets.all (fun w =>
    s.session_exercises.any (fun e => e.id == w.session_exercise_id))

/-- A constructed (not yet persisted) Template aggregate, saved onto store
s: parent id fresh, children back-reference the parent, child ids fresh
and pairwise distinct, child list kept in order_index order. -/
def templateAggOk (s : Store) (t : WorkoutTemplate) : Bool :=
  s.data_tables &&
  !(s.workout_templates.any (fun r => r.id == t.id)) &&
  t.exercises.all (fun e => e.template_id == t.id) &&
  t.exercises.all (fun e => !(s.template_exercises.any (fun r => r.id == e.id))) &&
  nodupBy (fun e : TemplateExercise => e.id) t.exercises &&
  sortedByB (fun a b : TemplateExercise =>
    decide (a.order_index ≤ b.order_index)) t.exercises

/-- A constructed (not yet persisted) Session aggregate, saved onto store
s: parent id fresh, template link (if any) valid, exercises back-reference
the session with fresh pairwise-distinct ids in order_index order, sets
back-reference their exercise with fresh pairwise-distinct ids in
created_at order. -/
def sessionAggOk (s : Store) (sess : WorkoutSession) : Bool :=
  s.data_tables &&
  !(s.workout_sessions.any (fun r => r.id == sess.id)) &&
  templateLinkOk s sess.template_id &&
  sess.exercises.all (fun ex => ex.session_id == sess.id) &&
  sess.exercises.all (fun ex =>
    !(s.session_exercises.any (fun r => r.id == ex.id))) &&
  nodupBy (fun ex : SessionExercise => ex.id) sess.exercises &&
  sortedByB (fun a b : SessionExercise =>
    decide (a.order_index ≤ b.order_index)) sess.exercises &&
  sess.exercises.all (fun ex =>
    ex.sets.all (fun w => w.session_exercise_id == ex.id)) &&
  sess.exercises.all (fun ex =>
    sortedByB (fun a b : Set => decide (a.created_at ≤ b.created_at)) ex.sets) &&
  (sess.exercises.flatMap (fun ex => ex.sets)).all (fun w =>
    !(s.sets.any (fun r => r.id == w.id))) &&
  nodupBy (fun w : Set => w.id) (sess.exercises.flatMap (fun ex => ex.sets))

/-- The store produced by a successful TemplateRepository.save: parent row
upserted (name only on conflict), children of the template id replaced
wholesale by the in-memory list.  Used to state the execution lemma. -/
def templateSavedStore (s : Store) (t : WorkoutTemplate) : Store :=
  { s with
    workout_templates :=
      if s.workout_templates.any (fun r => r.id == t.id) then
        s.workout_templates.map (fun r =>
          if r.id == t.id then { r with name := t.name } else r)
      else s.workout_templates ++ [⟨t.id, t.name, t.created_at⟩]
    template_exercises :=
      s.template_exercises.filter (fun r => !(r.template_id == t.id)) ++
      t.exercises.map (fun e =>
        ⟨e.id, t.id, e.name, e.order_index, boolToInt e.uses_weight⟩) }

/-- The store produced by a successful saveAggregate of a freshly
constructed session: parent row appended, exercise rows appended in list
order, set rows appended grouped by exercise in list order. -/
def sessionSavedStore (s : Store) (sess : WorkoutSession) : Store :=
  { s with
    workout_sessions :=
      s.workout_sessions ++ [SessionRepository.sessionRowOf sess]
    session_exercises :=
      s.session_exercises ++ sess.exercises.map SessionRepository.exerciseRowOf
    sets := s.sets ++ (sess.exercises.flatMap (fun ex => ex.sets)).map
      SessionRepository.setRowOf }

/-- Concrete timer state used to witness the elapsed-time formula. -/
def witnessTimerState : TimerState :=
  { is_running := true
    is_paused := false
    start_time := some 5
    pause_time := none
    accumulated_seconds := 10 }


/-- Witness inputs: a migrated store holding one session with one
exercise (Squats) and three sets with weights 135, 155, 175 inserted in
that created_at order. -/
def storeW : Store :=
  { emptyStore with
    schema_version_table := true
    data_tables := true
    schema_version := [(1, 0), (2, 0)]
    workout_sessions := [⟨"s1", none, none, 100, none, none, none⟩]
    session_exercises := [⟨"e1", "s1", "Squats", 0, 1⟩]
    sets := [⟨"w1", "e1", 5, some 135, 1⟩, ⟨"w2", "e1", 5, some 155, 2⟩,
             ⟨"w3", "e1", 5, some 175, 3⟩] }

/-- Witness input: an in-memory update of the persisted session s1. -/
def sessW : WorkoutSession :=
  ⟨"s1", none, none, 100, some 200, some 100, some "done", []⟩

/-- Witness input: a re-save of the persisted set w1 with new reps and
weight. -/
def setW : Set := ⟨"w1", "e1", 8, some 140, 1⟩

/-- A stored timer_state JSON document whose start_time field is not a
well-formed timestamp string, although the document itself is valid JSON
with all five fields present. -/
def badTimerJson : Json :=
  Json.obj [("is_running", Json.bool true), ("is_paused", Json.bool false),
            ("start_time", Json.str "garbage"), ("pause_time", Json.null),
            ("accumulated_seconds", Json.num 0)]

/-- A well-formed stored timer_state JSON document. -/
def goodTimerJson : Json :=
  Json.obj [("is_running", Json.bool true), ("is_paused", Json.bool false),
            ("start_time", Json.str "100"), ("pause_time", Json.null),
            ("accumulated_seconds", Json.num 12)]

/-- Witness input: a store with one persisted template t1 owning child
rows te1 and te2. -/
def storeC6 : Store :=
  { emptyStore with
    data_tables := true
    workout_templates := [⟨"t1", "Full Body", 0⟩]
    template_exercises := [⟨"te1", "t1", "Squats", 0, 1⟩,
                           ⟨"te2", "t1", "Bench Press", 1, 1⟩] }

/-- Witness input: the in-memory copy of t1 that dropped te2. -/
def tC6 : WorkoutTemplate :=
  ⟨"t1", "Upper Body", 0, [⟨"te1", "t1", "Squats", 0, true⟩]⟩

/-- Witness input: an empty migrated store for the round-trip witness. -/
def storeC3 : Store := { emptyStore with data_tables := true }

/-- Witness input: a freshly constructed template aggregate. -/
def tW3 : WorkoutTemplate :=
  ⟨"T1", "Push Day", 5,
    [⟨"E1", "T1", "Bench Press", 0, true⟩, ⟨"E2", "T1", "Pull-ups", 1, false⟩]⟩

/-- Witness input: a freshly constructed session aggregate with one
exercise holding two sets. -/
def sessW3 : WorkoutSession :=
  ⟨"S1", none, none, 10, none, none, some "felt good",
    [⟨"X1", "S1", "Bench Press", 0, true,
      [⟨"W1", "X1", 10, some 135, 1⟩, ⟨"W2", "X1", 8, some 145, 2⟩]⟩]⟩

/-! ### Helper lemmas: the stable sort -/

theorem insertOrd_perm (le : α → α → Bool) (a : α) (l : List α) :
    List.Perm (insertOrd le a l) (a :: l) := by
  induction l with
  | nil => simp [insertOrd]
  | cons b t ih =>
    simp only [insertOrd]
    split
    · exact List.Perm.refl _
    · exact (ih.cons b).trans (List.Perm.swap a b t)

theorem sortBy_perm (le : α → α → Bool) (l : List α) :
    List.Perm (sortBy le l) l := by
  induction l with
  | nil => simp [sortBy]
  | cons a t ih => exact (insertOrd_perm le a (sortBy le t)).trans (ih.cons a)

theorem mem_sortBy (le : α → α → Bool) (l : List α) (x : α) :
    x ∈ sortBy le l ↔ x ∈ l :=
  (sortBy_perm le l).mem_iff

theorem sortBy_eq_nil_iff (le : α → α → Bool) (l : List α) :
    sortBy le l = [] ↔ l = [] := by
  constructor
  · intro h
    have hp := sortBy_perm le l
    rw [h] at hp
    exact hp.nil_eq.symm
  · intro h; subst h; rfl

theorem insertOrd_pairwise (le : α → α → Bool)
    (htot : ∀ x y, le x y = true ∨ le y x = true)
    (htrans : ∀ x y z, le x y = true → le y z = true → le x z = true)
    (a : α) (l : List α) (h : l.Pairwise (fun x y => le x y = true)) :
    (insertOrd le a l).Pairwise (fun x y => le x y = true) := by
  induction l with
  | nil => simp [insertOrd]
  | cons b t ih =>
    simp only [insertOrd]
    rcases List.pairwise_cons.mp h with ⟨hb, ht⟩
    split
    · rename_i hab
      refine List.pairwise_cons.mpr ⟨?_, h⟩
      intro x hx
      rcases List.mem_cons.mp hx with rfl | hx
      · exact hab
      · exact htrans a b x hab (hb x hx)
    · rename_i hab
      have hba : le b a = true := by
        rcases htot a b with h1 | h1
        · exact absurd h1 hab
        · exact h1
      refine List.pairwise_cons.mpr ⟨?_, ih ht⟩
      intro x hx
      rcases List.mem_cons.mp ((insertOrd_perm le a t).mem_iff.mp hx) with rfl | hx
      · exact hba
      · exact hb x hx

theorem sortBy_pairwise (le : α → α → Bool)
    (htot : ∀ x y, le x y = true ∨ le y x = true)
    (htrans : ∀ x y z, le x y = true → le y z = true → le x z = true)
    (l : List α) :
    (sortBy le l).Pairwise (fun x y => le x y = true) := by
  induction l with
  | nil => simp [sortBy]
  | cons a t ih => exact insertOrd_pairwise le htot htrans a (sortBy le t) ih

theorem sortBy_head_le (le : α → α → Bool)
    (htot : ∀ x y, le x y = true ∨ le y x = true)
    (htrans : ∀ x y z, le x y = true → le y z = true → le x z = true)
    (l : List α) (r : α) (rest : List α) (h : sortBy le l = r :: rest) :
    ∀ x ∈ l, le r x = true := by
  intro x hx
  have hmem : x ∈ r :: rest := by
    rw [← h]; exact (mem_sortBy le l x).mpr hx
  have hpw := sortBy_pairwise le htot htrans l
  rw [h] at hpw
  rcases List.pairwise_cons.mp hpw with ⟨hr, _⟩
  rcases List.mem_cons.mp hmem with rfl | hmem
  · rcases htot x x with h1 | h1 <;> exact h1
  · exact hr x hmem

theorem sortBy_of_sortedByB (le : α → α → Bool) (l : List α)
    (h : sortedByB le l = true) : sortBy le l = l := by
  induction l with
  | nil => rfl
  | cons a t ih =>
    cases t with
    | nil => rfl
    | cons b t2 =>
      have hab : le a b = true := by
        simp only [sortedByB, Bool.and_eq_true] at h
        exact h.1
      have ht : sortedByB le (b :: t2) = true := by
        simp only [sortedByB, Bool.and_eq_true] at h
        exact h.2
      calc sortBy le (a :: b :: t2) = insertOrd le a (sortBy le (b :: t2)) := rfl
        _ = insertOrd le a (b :: t2) := by rw [ih ht]
        _ = a :: b :: t2 := by simp [insertOrd, hab]

theorem insertOrd_map (le1 : α → α → Bool) (le2 : β → β → Bool) (f : α → β)
    (hf : ∀ x y, le2 (f x) (f y) = le1 x y) (a : α) (l : List α) :
    insertOrd le2 (f a) (l.map f) = (insertOrd le1 a l).map f := by
  induction l with
  | nil => rfl
  | cons b t ih =>
    simp only [List.map_cons, insertOrd, hf]
    split
    · rfl
    · simp [ih]

theorem sortBy_map (le1 : α → α → Bool) (le2 : β → β → Bool) (f : α → β)
    (hf : ∀ x y, le2 (f x) (f y) = le1 x y) (l : List α) :
    sortBy le2 (l.map f) = (sortBy le1 l).map f := by
  induction l with
  | nil => rfl
  | cons a t ih =>
    simp only [List.map_cons, sortBy, ih]
    exact insertOrd_map le1 le2 f hf a (sortBy le1 t)

theorem sortedByB_map (le1 : α → α → Bool) (le2 : β → β → Bool) (f : α → β)
    (hf : ∀ x y, le2 (f x) (f y) = le1 x y) (l : List α) :
    sortedByB le2 (l.map f) = sortedByB le1 l := by
  induction l with
  | nil => rfl
  | cons a t ih =>
    cases t with
    | nil => rfl
    | cons b t2 =>
      calc sortedByB le2 ((a :: b :: t2).map f)
          = (le2 (f a) (f b) && sortedByB le2 ((b :: t2).map f)) := rfl
        _ = (le1 a b && sortedByB le1 (b :: t2)) := by rw [hf, ih]
        _ = sortedByB le1 (a :: b :: t2) := rfl

/-! ### Helper lemmas: statement sequencing and lists -/

theorem execStmts_append (l1 l2 : List Stmt) (s : Store) :
    execStmts (l1 ++ l2) s =
      match execStmts l1 s with
      | .ok s1 => execStmts l2 s1
      | .error e => .error e := by
  induction l1 generalizing s with
  | nil => rfl
  | cons stmt rest ih =>
    simp only [List.cons_append, execStmts]
    cases execStmt s stmt with
    | ok s1 => exact ih s1
    | error e => rfl

theorem find?_append_left_none (p : α → Bool) (l1 l2 : List α)
    (h : l1.find? p = none) : (l1 ++ l2).find? p = l2.find? p := by
  induction l1 with
  | nil => rfl
  | cons a t ih =>
    simp only [List.find?] at h ⊢
    cases hpa : p a with
    | true => rw [hpa] at h; simp at h
    | false =>
      rw [hpa] at h
      simp only [List.cons_append, List.find?, hpa]
      exact ih h

theorem find?_map_key (g : α → α) (p : α → Bool) (hg : ∀ a, p (g a) = p a)
    (l : List α) : (l.map g).find? p = (l.find? p).map g := by
  induction l with
  | nil => rfl
  | cons a t ih =>
    simp only [List.map_cons, List.find?, hg]
    cases p a with
    | true => rfl
    | false => exact ih

theorem intToBool_boolToInt (b : Bool) : intToBool (boolToInt b) = b := by
  cases b <;> rfl

theorem map_map_eq_of_proj (f : α → α) (g : α → β) (hfg : ∀ a, g (f a) = g a)
    (l : List α) : (l.map f).map g = l.map g := by
  induction l with
  | nil => rfl
  | cons a t ih => simp only [List.map_cons, hfg, ih]

/-! ### Helper lemmas: template save execution -/

theorem nodupBy_pairwise (key : α → String) (l : List α)
    (h : nodupBy key l = true) : l.Pairwise (fun a b => ¬(key a = key b)) := by
  induction l with
  | nil => exact List.Pairwise.nil
  | cons a t ih =>
    simp only [nodupBy, Bool.and_eq_true, Bool.not_eq_true'] at h
    refine List.pairwise_cons.mpr ⟨?_, ih h.2⟩
    intro b hb hab
    have : t.any (fun b => key b == key a) = true :=
      List.any_eq_true.mpr ⟨b, hb, beq_iff_eq.mpr hab.symm⟩
    rw [h.1] at this
    exact Bool.false_ne_true this

theorem any_eq_false_of_not_mem (p : α → Bool) (l : List α)
    (h : ∀ x ∈ l, ¬(p x = true)) : l.any p = false := by
  cases hc : l.any p with
  | false => rfl
  | true =>
    obtain ⟨x, hx, hpx⟩ := List.any_eq_true.mp hc
    exact absurd hpx (h x hx)

theorem filter_not_filter_nil (p : α → Bool) (l : List α) :
    (l.filter (fun a => !(p a))).filter p = [] := by
  induction l with
  | nil => rfl
  | cons a t ih =>
    by_cases h : p a = true
    · simp [List.filter_cons, h, ih]
    · simp only [Bool.not_eq_true] at h
      simp [List.filter_cons, h, ih]

theorem filter_of_all_true (p : α → Bool) (l : List α)
    (h : ∀ x ∈ l, p x = true) : l.filter p = l := by
  induction l with
  | nil => rfl
  | cons a t ih =>
    rw [List.filter_cons_of_pos (h a (List.mem_cons_self a t))]
    rw [ih (fun x hx => h x (List.mem_cons_of_mem a hx))]

theorem any_id_map_upsert (l : List TemplateRow) (id nm : String)
    (h : l.any (fun r => r.id == id) = true) :
    (l.map (fun r => if r.id == id then { r with name := nm } else r)).any
      (fun r => r.id == id) = true := by
  rw [List.any_eq_true] at h ⊢
  obtain ⟨r, hr, hid⟩ := h
  exact ⟨if r.id == id then { r with name := nm } else r,
    List.mem_map_of_mem _ hr, by simp [hid]⟩

theorem exec_insert_children (tid : String) (children : List TemplateExercise)
    (s : Store)
    (htab : s.data_tables = true)
    (hparent : s.workout_templates.any (fun r => r.id == tid) = true)
    (hfresh : ∀ e ∈ children, ∀ r ∈ s.template_exercises, ¬(r.id = e.id))
    (hnodup : children.Pairwise (fun a b => ¬(a.id = b.id))) :
    execStmts (children.map (fun e => Stmt.insertTemplateExercise e.id tid
      e.name e.order_index (boolToInt e.uses_weight))) s =
    .ok { s with template_exercises := s.template_exercises ++
      children.map (fun e =>
        ⟨e.id, tid, e.name, e.order_index, boolToInt e.uses_weight⟩) } := by
  induction children generalizing s with
  | nil => simp [execStmts]
  | cons e rest ih =>
    have hpk : s.template_exercises.any (fun r => r.id == e.id) = false := by
      refine any_eq_false_of_not_mem _ _ ?_
      intro r hr hbeq
      exact hfresh e (List.mem_cons_self e rest) r hr (beq_iff_eq.mp hbeq)
    have hstep : execStmt s (Stmt.insertTemplateExercise e.id tid e.name
        e.order_index (boolToInt e.uses_weight)) =
        .ok { s with template_exercises := s.template_exercises ++
          [⟨e.id, tid, e.name, e.order_index, boolToInt e.uses_weight⟩] } := by
      simp [execStmt, htab, hpk, hparent]
    simp only [List.map_cons, execStmts, hstep]
    rw [ih { s with template_exercises := s.template_exercises ++
        [⟨e.id, tid, e.name, e.order_index, boolToInt e.uses_weight⟩] }
      htab hparent ?_ (List.pairwise_cons.mp hnodup).2]
    · simp
    · intro e2 he2 r hr
      rcases List.mem_append.mp hr with hold | hnew
      · exact hfresh e2 (List.mem_cons_of_mem e he2) r hold
      · have : r = ⟨e.id, tid, e.name, e.order_index, boolToInt e.uses_weight⟩ := by
          simpa using hnew
        subst this
        intro hid
        exact (List.pairwise_cons.mp hnodup).1 e2 he2 hid

theorem template_save_exec (s : Store) (t : WorkoutTemplate)
    (htab : s.data_tables = true)
    (hfreshC : ∀ e ∈ t.exercises, ∀ r ∈ s.template_exercises,
      ¬(r.template_id = t.id) → ¬(r.id = e.id))
    (hnodup : t.exercises.Pairwise (fun a b => ¬(a.id = b.id))) :
    TemplateRepository.save s t = (templateSavedStore s t, none) := by
  have h1 : execStmt s (Stmt.insertTemplateUpsertName t.id t.name t.created_at) =
      .ok { s with workout_templates :=
        if s.workout_templates.any (fun r => r.id == t.id) then
          s.workout_templates.map (fun r =>
            if r.id == t.id then { r with name := t.name } else r)
        else s.workout_templates ++ [⟨t.id, t.name, t.created_at⟩] } := by
    simp only [execStmt, htab, Bool.not_true]
    rw [if_neg (by simp)]
    split <;> rfl
  set WT := if s.workout_templates.any (fun r => r.id == t.id) then
      s.workout_templates.map (fun r =>
        if r.id == t.id then { r with name := t.name } else r)
    else s.workout_templates ++ [⟨t.id, t.name, t.created_at⟩] with hWT
  have h2 : execStmt { s with workout_templates := WT }
      (Stmt.deleteTemplateExercises t.id) =
      .ok { s with workout_templates := WT
                   template_exercises := s.template_exercises.filter
                     (fun r => !(r.template_id == t.id)) } := by
    simp [execStmt, htab]
  have hparent : WT.any (fun r => r.id == t.id) = true := by
    rw [hWT]
    by_cases hex : s.workout_templates.any (fun r => r.id == t.id) = true
    · rw [if_pos hex]
      exact any_id_map_upsert s.workout_templates t.id t.name hex
    · rw [if_neg hex]
      simp
  have h3 := exec_insert_children t.id t.exercises
    { s with workout_templates := WT
             template_exercises := s.template_exercises.filter
               (fun r => !(r.template_id == t.id)) }
    htab hparent ?_ hnodup
  · simp only [TemplateRepository.save, TemplateRepository.saveStmts,
      Database.transaction, execStmts, h1, h2, h3, templateSavedStore]
  · intro e he r hr
    have hr2 := List.mem_filter.mp hr
    refine hfreshC e he r hr2.1 ?_
    have := hr2.2
    simp only [Bool.not_eq_true'] at this
    exact fun hEq => by
      rw [beq_iff_eq.mpr hEq] at this
      simp at this

theorem template_get_by_id_eq (s : Store) (tid : String) (row : TemplateRow)
    (hfind : s.workout_templates.find? (fun r => r.id == tid) = some row) :
    TemplateRepository.get_by_id s tid = some
      { id := row.id
        name := row.name
        created_at := row.created_at
        exercises := (sortBy leOrderTE (s.template_exercises.filter
          (fun r => r.template_id == tid))).map
            TemplateRepository.rowToExercise } := by
  simp [TemplateRepository.get_by_id, hfind]

theorem find?_some_of_any (p : α → Bool) (l : List α)
    (h : l.any p = true) : ∃ x, l.find? p = some x := by
  cases hf : l.find? p with
  | some x => exact ⟨x, rfl⟩
  | none =>
    obtain ⟨x, hx, hpx⟩ := List.any_eq_true.mp h
    exact absurd hpx (List.find?_eq_none.mp hf x hx)

theorem filter_eq_nil_of_all_false (p : α → Bool) (l : List α)
    (h : ∀ x ∈ l, p x = false) : l.filter p = [] := by
  induction l with
  | nil => rfl
  | cons a t ih =>
    rw [List.filter_cons_of_neg (by rw [h a (List.mem_cons_self a t)]; simp)]
    exact ih (fun x hx => h x (List.mem_cons_of_mem a hx))

theorem map_eq_self_of_mem (f : α → α) (l : List α)
    (h : ∀ a ∈ l, f a = a) : l.map f = l := by
  induction l with
  | nil => rfl
  | cons a t ih =>
    rw [List.map_cons, h a (List.mem_cons_self a t),
      ih (fun x hx => h x (List.mem_cons_of_mem a hx))]

/-- The foreign-key component of the invariant for session_exercises. -/
theorem wfB_se_fk (s : Store) (h : Store.wfB s = true) :
    ∀ e ∈ s.session_exercises,
      s.workout_sessions.any (fun r => r.id == e.session_id) = true := by
  simp only [Store.wfB, Bool.and_eq_true] at h
  exact List.all_eq_true.mp h.1.2

/-- The foreign-key component of the invariant for sets. -/
theorem wfB_sets_fk (s : Store) (h : Store.wfB s = true) :
    ∀ w ∈ s.sets,
      s.session_exercises.any (fun e => e.id == w.session_exercise_id) = true := by
  simp only [Store.wfB, Bool.and_eq_true] at h
  exact List.all_eq_true.mp h.2

/-- The foreign-key component of the invariant for template_exercises. -/
theorem wfB_te_fk (s : Store) (h : Store.wfB s = true) :
    ∀ e ∈ s.template_exercises,
      s.workout_templates.any (fun r => r.id == e.template_id) = true := by
  simp only [Store.wfB, Bool.and_eq_true] at h
  exact List.all_eq_true.mp h.1.1.1.2

/-! ### Helper lemmas: session aggregate save execution -/

theorem saveSets_exec (ws : List Set) (s : Store)
    (htab : s.data_tables = true)
    (hfk : ∀ w ∈ ws,
      s.session_exercises.any (fun r => r.id == w.session_exercise_id) = true)
    (hfresh : ∀ w ∈ ws, ∀ r ∈ s.sets, ¬(r.id = w.id))
    (hnodup : ws.Pairwise (fun a b => ¬(a.id = b.id))) :
    SessionRepository.saveSets s ws =
      ({ s with sets := s.sets ++ ws.map SessionRepository.setRowOf }, none) := by
  induction ws generalizing s with
  | nil => simp [SessionRepository.saveSets]
  | cons w rest ih =>
    have hpk : s.sets.any (fun r => r.id == w.id) = false := by
      refine any_eq_false_of_not_mem _ _ ?_
      intro r hr hbeq
      exact hfresh w (List.mem_cons_self w rest) r hr (beq_iff_eq.mp hbeq)
    have hstep : SessionRepository.save_set s w =
        ({ s with sets := s.sets ++ [SessionRepository.setRowOf w] }, none) := by
      simp [SessionRepository.save_set, Database.transaction, execStmts,
        execStmt, SessionRepository.setRowOf, htab, hpk,
        hfk w (List.mem_cons_self w rest)]
    simp only [SessionRepository.saveSets, hstep]
    rw [ih { s with sets := s.sets ++ [SessionRepository.setRowOf w] }
      htab
      (fun w2 hw2 => hfk w2 (List.mem_cons_of_mem w hw2))
      ?_
      (List.pairwise_cons.mp hnodup).2]
    · simp
    · intro w2 hw2 r hr
      rcases List.mem_append.mp hr with hold | hnew
      · exact hfresh w2 (List.mem_cons_of_mem w hw2) r hold
      · have : r = SessionRepository.setRowOf w := by simpa using hnew
        subst this
        exact fun hid => (List.pairwise_cons.mp hnodup).1 w2 hw2 hid

theorem saveExercises_exec (exs : List SessionExercise) (s : Store)
    (htab : s.data_tables = true)
    (hsess : ∀ ex ∈ exs,
      s.workout_sessions.any (fun r => r.id == ex.session_id) = true)
    (hfreshE : ∀ ex ∈ exs, ∀ r ∈ s.session_exercises, ¬(r.id = ex.id))
    (hnodupE : exs.Pairwise (fun a b => ¬(a.id = b.id)))
    (hown : ∀ ex ∈ exs, ∀ w ∈ ex.sets, w.session_exercise_id = ex.id)
    (hfreshS : ∀ ex ∈ exs, ∀ w ∈ ex.sets, ∀ r ∈ s.sets, ¬(r.id = w.id))
    (hnodupS : (exs.flatMap (fun ex => ex.sets)).Pairwise
      (fun a b => ¬(a.id = b.id))) :
    SessionRepository.saveExercises s exs =
      ({ s with
          session_exercises := s.session_exercises ++
            exs.map SessionRepository.exerciseRowOf
          sets := s.sets ++ (exs.flatMap (fun ex => ex.sets)).map
            SessionRepository.setRowOf }, none) := by
  induction exs generalizing s with
  | nil => simp [SessionRepository.saveExercises]
  | cons ex rest ih =>
    have hflat : (ex :: rest).flatMap (fun e => e.sets) =
        ex.sets ++ rest.flatMap (fun e => e.sets) := by
      simp [List.flatMap_cons]
    have hpk : s.session_exercises.any (fun r => r.id == ex.id) = false := by
      refine any_eq_false_of_not_mem _ _ ?_
      intro r hr hbeq
      exact hfreshE ex (List.mem_cons_self ex rest) r hr (beq_iff_eq.mp hbeq)
    have hstep : SessionRepository.save_exercise s ex =
        ({ s with session_exercises := s.session_exercises ++
          [SessionRepository.exerciseRowOf ex] }, none) := by
      simp [SessionRepository.save_exercise, Database.transaction, execStmts,
        execStmt, SessionRepository.exerciseRowOf, htab, hpk,
        hsess ex (List.mem_cons_self ex rest)]
    have hnodupApp := List.pairwise_append.mp (by rw [← hflat]; exact hnodupS)
    have hsets : SessionRepository.saveSets
        { s with session_exercises := s.session_exercises ++
          [SessionRepository.exerciseRowOf ex] } ex.sets =
        ({ s with
            session_exercises := s.session_exercises ++
              [SessionRepository.exerciseRowOf ex]
            sets := s.sets ++ ex.sets.map SessionRepository.setRowOf },
          none) := by
      exact saveSets_exec ex.sets
        { s with session_exercises := s.session_exercises ++
          [SessionRepository.exerciseRowOf ex] }
        htab
        (by
          intro w hw
          show (s.session_exercises ++
            [SessionRepository.exerciseRowOf ex]).any
              (fun r => r.id == w.session_exercise_id) = true
          rw [hown ex (List.mem_cons_self ex rest) w hw]
          refine List.any_eq_true.mpr ?_
          refine ⟨SessionRepository.exerciseRowOf ex, List.mem_append_right _
            (List.mem_singleton.mpr rfl), ?_⟩
          simp [SessionRepository.exerciseRowOf])
        (fun w hw r hr => hfreshS ex (List.mem_cons_self ex rest) w hw r hr)
        hnodupApp.1
    simp only [SessionRepository.saveExercises, hstep, hsets]
    rw [ih { s with
        session_exercises := s.session_exercises ++
          [SessionRepository.exerciseRowOf ex]
        sets := s.sets ++ ex.sets.map SessionRepository.setRowOf }
      htab
      (fun e2 he2 => hsess e2 (List.mem_cons_of_mem ex he2))
      ?_
      (List.pairwise_cons.mp hnodupE).2
      (fun e2 he2 => hown e2 (List.mem_cons_of_mem ex he2))
      ?_
      hnodupApp.2.1]
    · rw [hflat]
      simp [List.map_append, List.append_assoc]
    · intro e2 he2 r hr
      rcases List.mem_append.mp hr with hold | hnew
      · exact hfreshE e2 (List.mem_cons_of_mem ex he2) r hold
      · have : r = SessionRepository.exerciseRowOf ex := by simpa using hnew
        subst this
        exact fun hid => (List.pairwise_cons.mp hnodupE).1 e2 he2 hid
    · intro e2 he2 w hw r hr
      rcases List.mem_append.mp hr with hold | hnew
      · exact hfreshS e2 (List.mem_cons_of_mem ex he2) w hw r hold
      · obtain ⟨w0, hw0, rfl⟩ := List.mem_map.mp hnew
        have hcross := hnodupApp.2.2 w0 hw0 w
          (List.mem_flatMap.mpr ⟨e2, he2, hw⟩)
        exact fun hid => hcross hid

/-- Filtering the appended set rows of a whole aggregate down to one
member exercise yields exactly that exercise's set rows. -/
theorem filter_flatMap_sets (exs : List SessionExercise) (ex : SessionExercise)
    (hmem : ex ∈ exs)
    (hown : ∀ e ∈ exs, ∀ w ∈ e.sets, w.session_exercise_id = e.id)
    (hnodupE : exs.Pairwise (fun a b => ¬(a.id = b.id))) :
    ((exs.flatMap (fun e => e.sets)).map SessionRepository.setRowOf).filter
      (fun r => r.session_exercise_id == ex.id) =
    ex.sets.map SessionRepository.setRowOf := by
  induction exs with
  | nil => cases hmem
  | cons e rest ih =>
    rw [List.flatMap_cons, List.map_append, List.filter_append]
    rcases List.mem_cons.mp hmem with rfl | hmem2
    · have h1 : (ex.sets.map SessionRepository.setRowOf).filter
          (fun r => r.session_exercise_id == ex.id) =
          ex.sets.map SessionRepository.setRowOf := by
        refine filter_of_all_true _ _ ?_
        intro x hx
        obtain ⟨w, hw, rfl⟩ := List.mem_map.mp hx
        simp [SessionRepository.setRowOf,
          hown ex (List.mem_cons_self ex rest) w hw]
      have h2 : ((rest.flatMap (fun e2 => e2.sets)).map
          SessionRepository.setRowOf).filter
          (fun r => r.session_exercise_id == ex.id) = [] := by
        refine filter_eq_nil_of_all_false _ _ ?_
        intro x hx
        obtain ⟨w, hw, rfl⟩ := List.mem_map.mp hx
        obtain ⟨e2, he2, hw2⟩ := List.mem_flatMap.mp hw
        have : w.session_exercise_id = e2.id :=
          hown e2 (List.mem_cons_of_mem ex he2) w hw2
        simp only [SessionRepository.setRowOf, this]
        have hne := (List.pairwise_cons.mp hnodupE).1 e2 he2
        cases hb : (e2.id == ex.id) with
        | false => rfl
        | true => exact absurd (beq_iff_eq.mp hb).symm hne
      rw [h1, h2, List.append_nil]
    · have h1 : (e.sets.map SessionRepository.setRowOf).filter
          (fun r => r.session_exercise_id == ex.id) = [] := by
        refine filter_eq_nil_of_all_false _ _ ?_
        intro x hx
        obtain ⟨w, hw, rfl⟩ := List.mem_map.mp hx
        have : w.session_exercise_id = e.id :=
          hown e (List.mem_cons_self e rest) w hw
        simp only [SessionRepository.setRowOf, this]
        have hne := (List.pairwise_cons.mp hnodupE).1 ex hmem2
        cases hb : (e.id == ex.id) with
        | false => rfl
        | true => exact absurd (beq_iff_eq.mp hb) hne
      rw [h1, List.nil_append]
      exact ih hmem2
        (fun e2 he2 => hown e2 (List.mem_cons_of_mem e he2))
        (List.pairwise_cons.mp hnodupE).2

/-! ### Helper lemmas: migrations -/

theorem transaction_ok_exec (stmts : List Stmt) (sX sY : Store)
    (h : Database.transaction stmts sX = (sY, none)) :
    execStmts stmts sX = .ok sY := by
  unfold Database.transaction at h
  cases hex : execStmts stmts sX with
  | ok s2 =>
    rw [hex] at h
    obtain ⟨h1, -⟩ := Prod.mk.injEq .. ▸ h
    exact congrArg Except.ok h1
  | error e =>
    rw [hex] at h
    simp at h

theorem insert_version_ok (sX sY : Store) (v : Nat) (n : Int)
    (h : Database.transaction [Stmt.insertSchemaVersion v n] sX = (sY, none)) :
    sY = { sX with schema_version := sX.schema_version ++ [(v, n)] } := by
  have hex := transaction_ok_exec _ _ _ h
  simp only [execStmts, execStmt] at hex
  by_cases hf : sX.schema_version_table = true
  · by_cases hp : (sX.schema_version.any fun r => r.1 == v) = true
    · rw [hp] at hex
      simp [hf] at hex
    · simp only [hf, Bool.not_true, Bool.false_eq_true, if_false,
        eq_false_of_ne_true hp] at hex
      injection hex with h2
      rw [← h2, hf]
  · simp [eq_false_of_ne_true hf] at hex

/-- Statement kinds that leave the schema_version ledger and its table
flag untouched. -/
def Stmt.ledgerFree : Stmt → Bool
  | Stmt.createSchemaVersionTable => false
  | Stmt.insertSchemaVersion _ _ => false
  | _ => true

theorem execStmt_ledger_frame (sX sY : Store) (stmt : Stmt)
    (hk : stmt.ledgerFree = true)
    (h : execStmt sX stmt = .ok sY) :
    sY.schema_version = sX.schema_version ∧
    sY.schema_version_table = sX.schema_version_table := by
  cases stmt <;> simp only [Stmt.ledgerFree] at hk <;>
    simp only [execStmt] at h <;>
    (try (repeat' split at h)) <;>
    first
      | (rw [Except.ok.injEq] at h; subst h; exact ⟨rfl, rfl⟩)
      | exact absurd hk Bool.false_ne_true
      | (injection h)

theorem execStmts_ledger_frame (stmts : List Stmt) (sX sY : Store)
    (hk : ∀ st ∈ stmts, st.ledgerFree = true)
    (h : execStmts stmts sX = .ok sY) :
    sY.schema_version = sX.schema_version ∧
    sY.schema_version_table = sX.schema_version_table := by
  induction stmts generalizing sX with
  | nil =>
    simp only [execStmts] at h
    injection h with h2
    subst h2
    exact ⟨rfl, rfl⟩
  | cons stmt rest ih =>
    simp only [execStmts] at h
    cases hex : execStmt sX stmt with
    | ok s2 =>
      rw [hex] at h
      have h1 := execStmt_ledger_frame sX s2 stmt
        (hk stmt (List.mem_cons_self stmt rest)) hex
      have h2 := ih s2 (fun st hst => hk st (List.mem_cons_of_mem stmt hst)) h
      exact ⟨h2.1.trans h1.1, h2.2.trans h1.2⟩
    | error e =>
      rw [hex] at h
      simp at h

theorem seedStmts_ledgerFree (supply : Nat → String) (now : Int) :
    ∀ st ∈ seedStmts supply now, st.ledgerFree = true := by
  intro st hst
  simp only [seedStmts, seedOne, List.mem_append, List.mem_cons,
    List.mem_map] at hst
  rcases hst with ((rfl | ⟨p, hp, rfl⟩) | (rfl | ⟨p, hp, rfl⟩)) |
    (rfl | ⟨p, hp, rfl⟩) <;> rfl

theorem set_flag_id (sX : Store) (h : sX.schema_version_table = true) :
    { sX with schema_version_table := true } = sX := by
  cases sX
  simp only at h
  subst h
  rfl

theorem get_current_version_ge (sX : Store) (v : Nat) (n : Int)
    (hflag : sX.schema_version_table = true)
    (hmem : (v, n) ∈ sX.schema_version) :
    v ≤ get_current_version sX := by
  have htot : ∀ x y : Nat × Int,
      descVersion x y = true ∨ descVersion y x = true := by
    intro x y
    simp only [descVersion, decide_eq_true_eq]
    exact le_total y.1 x.1
  have htrans : ∀ x y z : Nat × Int, descVersion x y = true →
      descVersion y z = true → descVersion x z = true := by
    intro x y z h1 h2
    simp only [descVersion, decide_eq_true_eq] at h1 h2 ⊢
    exact le_trans h2 h1
  unfold get_current_version
  rw [hflag]
  simp only [Bool.not_true, Bool.false_eq_true, if_false]
  cases hl : sortBy descVersion sX.schema_version with
  | nil =>
    have : sX.schema_version = [] := (sortBy_eq_nil_iff _ _).mp hl
    rw [this] at hmem
    cases hmem
  | cons r rest =>
    have hle := sortBy_head_le descVersion htot htrans sX.schema_version
      r rest hl (v, n) hmem
    simp only [descVersion, decide_eq_true_eq] at hle
    simpa using hle

/-! ### Claim theorems -/

/-- C1: timer additivity with a virtual clock.  Starting from the Stopped
state at clock t0, pausing at clock t0+30 yields elapsedSeconds = 30;
resuming at any later instant t1 and advancing the clock 30 more seconds
yields elapsedSeconds = 60, and stop() at that point returns 60. -/
theorem timer_additivity_virtual_clock (t0 t1 : ℚ) :
    elapsedSeconds (Timer.pause (Timer.start TimerState.initial t0) (t0 + 30)) (t0 + 30) = 30 ∧
    elapsedSeconds
      (Timer.resume (Timer.pause (Timer.start TimerState.initial t0) (t0 + 30)) t1)
      (t1 + 30) = 60 ∧
    (Timer.stop
      (Timer.resume (Timer.pause (Timer.start TimerState.initial t0) (t0 + 30)) t1)
      (t1 + 30)).1 = 60 := by
  have h30 : t0 + 30 - t0 = 30 := by ring
  have h60 : (0 : ℚ) + (t0 + 30 - t0) + (t1 + 30 - t1) = 60 := by ring
  refine ⟨?_, ?_, ?_⟩ <;>
    simp [Timer.start, Timer.pause, Timer.resume, Timer.stop, TimerState.initial,
      elapsedSeconds, calculateElapsed, h30, h60, pyInt] <;>
    norm_num [Rat.num_ofNat, Rat.den_ofNat, Int.tdiv_one]

/-- C2: the elapsed-time formula of Timer._calculate_elapsed.  For every
timer state and every current clock value: Stopped (not is_running) and
Paused states yield accumulated_seconds only — in particular the result does
not depend on `now`, so advancing the clock while Paused never changes the
elapsed time — and a Running state with recorded start time t0 yields
accumulated_seconds + (now - t0). -/
theorem elapsed_seconds_formula (st : TimerState) (now : ℚ) :
    (st.is_running = false → calculateElapsed st now = st.accumulated_seconds) ∧
    (st.is_running = true → st.is_paused = true →
      calculateElapsed st now = st.accumulated_seconds) ∧
    (∀ t0 : ℚ, st.is_running = true → st.is_paused = false → st.start_time = some t0 →
      calculateElapsed st now = st.accumulated_seconds + (now - t0)) := by
  refine ⟨?_, ?_, ?_⟩
  · intro h; simp [calculateElapsed, h]
  · intro h hp; simp [calculateElapsed, h, hp]
  · intro t0 h hp hs; simp [calculateElapsed, h, hp, hs]

/-- Witness for C2: the formula evaluated at concrete states. -/
theorem elapsed_seconds_formula_witness :
    calculateElapsed witnessTimerState 8 = 10 + ((8 : ℚ) - 5) ∧
    calculateElapsed TimerState.initial 8 = 0 ∧
    calculateElapsed { witnessTimerState with is_paused := true } 8 = 10 := by
  refine ⟨(elapsed_seconds_formula witnessTimerState 8).2.2 5 rfl rfl rfl, ?_, ?_⟩
  · exact (elapsed_seconds_formula TimerState.initial 8).1 rfl
  · exact (elapsed_seconds_formula { witnessTimerState with is_paused := true } 8).2.1 rfl rfl

/-- C4: transaction atomicity.  For every sequence of statements executed
inside a transaction() scope: if any step raises after an initial prefix
has executed, the committed store is exactly the store at scope entry and
the original exception is propagated unchanged; if no step raises, the
scope commits the fully executed store exactly once with no error. -/
theorem transaction_atomicity :
    (∀ (pre : List Stmt) (stmt : Stmt) (post : List Stmt) (s s1 : Store)
        (e : DbError),
      execStmts pre s = .ok s1 → execStmt s1 stmt = .error e →
      Database.transaction (pre ++ stmt :: post) s = (s, some e)) ∧
    (∀ (stmts : List Stmt) (s s1 : Store),
      execStmts stmts s = .ok s1 →
      Database.transaction stmts s = (s1, none)) := by
  constructor
  · intro pre stmt post s s1 e hpre hfail
    have habort : execStmts (pre ++ stmt :: post) s = .error e := by
      rw [execStmts_append, hpre]
      simp only [execStmts, hfail]
    simp only [Database.transaction, habort]
  · intro stmts s s1 h
    simp only [Database.transaction, h]

/-- Witness for C4: a two-statement scope whose second statement raises
(inserting a ledger row before the schema_version table exists) leaves the
empty store untouched and surfaces the error; the successful one-statement
scope commits. -/
theorem transaction_atomicity_witness :
    Database.transaction [Stmt.createDataTables, Stmt.insertSchemaVersion 1 0]
        emptyStore =
      (emptyStore, some (DbError.missingTable "schema_version")) ∧
    Database.transaction [Stmt.createDataTables] emptyStore =
      ({ emptyStore with data_tables := true }, none) :=
  ⟨transaction_atomicity.1 [Stmt.createDataTables] (Stmt.insertSchemaVersion 1 0)
      [] emptyStore { emptyStore with data_tables := true }
      (DbError.missingTable "schema_version") (by rfl) (by rfl),
   transaction_atomicity.2 [Stmt.createDataTables] emptyStore
      { emptyStore with data_tables := true } (by rfl)⟩

/-- C7: SessionRepository.save frame property.  For a session whose row is
already persisted, save(session) succeeds, touches no table but
workout_sessions, rewrites only the mutable columns (template_id,
template_name, ended_at, duration_seconds, notes) of the row with the
session's id, leaves every other session row unchanged, and preserves the
stored started_at of every row. -/
theorem session_save_frame (s : Store) (sess : WorkoutSession)
    (htab : s.data_tables = true)
    (hrow : s.workout_sessions.any (fun r => r.id == sess.id) = true)
    (hfk : templateLinkOk s sess.template_id = true) :
    (SessionRepository.save s sess).2 = none ∧
    (SessionRepository.save s sess).1.session_exercises = s.session_exercises ∧
    (SessionRepository.save s sess).1.sets = s.sets ∧
    (SessionRepository.save s sess).1.workout_templates = s.workout_templates ∧
    (SessionRepository.save s sess).1.template_exercises = s.template_exercises ∧
    (SessionRepository.save s sess).1.app_state = s.app_state ∧
    (SessionRepository.save s sess).1.workout_sessions =
      s.workout_sessions.map (fun r =>
        if r.id == sess.id then
          { r with template_id := sess.template_id
                   template_name := sess.template_name
                   ended_at := sess.ended_at
                   duration_seconds := sess.duration_seconds
                   notes := sess.notes }
        else r) ∧
    (SessionRepository.save s sess).1.workout_sessions.map
        (fun r => r.started_at) =
      s.workout_sessions.map (fun r => r.started_at) := by
  have h1 : execStmt s (Stmt.upsertSession (SessionRepository.sessionRowOf sess)) =
      .ok { s with workout_sessions := s.workout_sessions.map (fun r =>
        if r.id == sess.id then
          { r with template_id := sess.template_id
                   template_name := sess.template_name
                   ended_at := sess.ended_at
                   duration_seconds := sess.duration_seconds
                   notes := sess.notes }
        else r) } := by
    simp only [execStmt, SessionRepository.sessionRowOf, htab, hfk, hrow,
      Bool.not_true, if_false, if_true]
    simp
  have hsave : SessionRepository.save s sess =
      ({ s with workout_sessions := s.workout_sessions.map (fun r =>
        if r.id == sess.id then
          { r with template_id := sess.template_id
                   template_name := sess.template_name
                   ended_at := sess.ended_at
                   duration_seconds := sess.duration_seconds
                   notes := sess.notes }
        else r) }, none) := by
    simp only [SessionRepository.save, Database.transaction, execStmts, h1]
  refine ⟨by rw [hsave], by rw [hsave], by rw [hsave], by rw [hsave],
    by rw [hsave], by rw [hsave], by rw [hsave], ?_⟩
  rw [hsave]
  exact map_map_eq_of_proj _ _ (by
    intro a
    by_cases h : a.id == sess.id <;> simp [h]) s.workout_sessions

/-- Witness for C7: re-saving session s1 of the witness store with
ended_at, duration_seconds and notes filled in. -/
theorem session_save_frame_witness :
    (SessionRepository.save storeW sessW).2 = none ∧
    (SessionRepository.save storeW sessW).1.session_exercises =
      storeW.session_exercises ∧
    (SessionRepository.save storeW sessW).1.sets = storeW.sets ∧
    (SessionRepository.save storeW sessW).1.workout_templates =
      storeW.workout_templates ∧
    (SessionRepository.save storeW sessW).1.template_exercises =
      storeW.template_exercises ∧
    (SessionRepository.save storeW sessW).1.app_state = storeW.app_state ∧
    (SessionRepository.save storeW sessW).1.workout_sessions =
      storeW.workout_sessions.map (fun r =>
        if r.id == sessW.id then
          { r with template_id := sessW.template_id
                   template_name := sessW.template_name
                   ended_at := sessW.ended_at
                   duration_seconds := sessW.duration_seconds
                   notes := sessW.notes }
        else r) ∧
    (SessionRepository.save storeW sessW).1.workout_sessions.map
        (fun r => r.started_at) =
      storeW.workout_sessions.map (fun r => r.started_at) :=
  session_save_frame storeW sessW (by rfl) (by rfl) (by rfl)

/-- C10: SessionRepository.save_set frame property.  Re-saving a set whose
id is already persisted succeeds and rewrites only the reps and weight
columns of that row: the stored created_at and session_exercise_id of
every row are unchanged, every other row is untouched, and consequently
the created_at-ascending order of set ids used at load time is identical
before and after the save. -/
theorem set_upsert_frame (s : Store) (w : Set)
    (htab : s.data_tables = true)
    (hrow : s.sets.any (fun r => r.id == w.id) = true) :
    (SessionRepository.save_set s w).2 = none ∧
    (SessionRepository.save_set s w).1.sets = s.sets.map (fun r =>
      if r.id == w.id then { r with reps := w.reps, weight := w.weight }
      else r) ∧
    (SessionRepository.save_set s w).1.sets.map (fun r => r.created_at) =
      s.sets.map (fun r => r.created_at) ∧
    (SessionRepository.save_set s w).1.sets.map
        (fun r => r.session_exercise_id) =
      s.sets.map (fun r => r.session_exercise_id) ∧
    (sortBy leCreatedSet (SessionRepository.save_set s w).1.sets).map
        (fun r => r.id) =
      (sortBy leCreatedSet s.sets).map (fun r => r.id) := by
  have h1 : execStmt s (Stmt.upsertSet (SessionRepository.setRowOf w)) =
      .ok { s with sets := s.sets.map (fun r =>
        if r.id == w.id then { r with reps := w.reps, weight := w.weight }
        else r) } := by
    simp only [execStmt, SessionRepository.setRowOf, htab, hrow,
      Bool.not_true, if_false, if_true]
    simp
  have hsave : SessionRepository.save_set s w =
      ({ s with sets := s.sets.map (fun r =>
        if r.id == w.id then { r with reps := w.reps, weight := w.weight }
        else r) }, none) := by
    simp only [SessionRepository.save_set, Database.transaction, execStmts, h1]
  have hkey : ∀ x y : SetRow,
      leCreatedSet
        (if x.id == w.id then { x with reps := w.reps, weight := w.weight } else x)
        (if y.id == w.id then { y with reps := w.reps, weight := w.weight } else y) =
      leCreatedSet x y := by
    intro x y
    by_cases hx : x.id == w.id <;> by_cases hy : y.id == w.id <;>
      simp [leCreatedSet, hx, hy]
  refine ⟨by rw [hsave], by rw [hsave], ?_, ?_, ?_⟩
  · rw [hsave]
    exact map_map_eq_of_proj _ _ (by
      intro a
      by_cases h : a.id == w.id <;> simp [h]) s.sets
  · rw [hsave]
    exact map_map_eq_of_proj _ _ (by
      intro a
      by_cases h : a.id == w.id <;> simp [h]) s.sets
  · rw [hsave]
    have hs := sortBy_map leCreatedSet leCreatedSet
      (fun r : SetRow =>
        if r.id == w.id then { r with reps := w.reps, weight := w.weight } else r)
      hkey s.sets
    simp only [Prod.fst]
    rw [hs]
    exact map_map_eq_of_proj _ _ (by
      intro a
      by_cases h : a.id == w.id <;> simp [h]) (sortBy leCreatedSet s.sets)

/-- Witness for C10: re-saving set w1 of the witness store with new reps
and weight. -/
theorem set_upsert_frame_witness :
    (SessionRepository.save_set storeW setW).2 = none ∧
    (SessionRepository.save_set storeW setW).1.sets = storeW.sets.map (fun r =>
      if r.id == setW.id then { r with reps := setW.reps, weight := setW.weight }
      else r) ∧
    (SessionRepository.save_set storeW setW).1.sets.map (fun r => r.created_at) =
      storeW.sets.map (fun r => r.created_at) ∧
    (SessionRepository.save_set storeW setW).1.sets.map
        (fun r => r.session_exercise_id) =
      storeW.sets.map (fun r => r.session_exercise_id) ∧
    (sortBy leCreatedSet (SessionRepository.save_set storeW setW).1.sets).map
        (fun r => r.id) =
      (sortBy leCreatedSet storeW.sets).map (fun r => r.id) :=
  set_upsert_frame storeW setW (by rfl) (by rfl)

/-- C8: history index correctness.  A row belongs to the join of
get_last_weight_for_exercise exactly when it is a stored set with a
present weight whose owning SessionExercise (the exercise row its
session_exercise_id references) has exactly the queried name; the query
returns none exactly when no such set exists, and otherwise returns the
weight of a matching set whose created_at is greatest among all matching
sets. -/
theorem last_weight_for_exercise_spec (s : Store) (name : String) :
    (∀ r : SetRow, r ∈ SessionRepository.joinedSets s name ↔
      (r ∈ s.sets ∧ r.weight.isSome = true ∧
        ∃ se ∈ s.session_exercises,
          se.id = r.session_exercise_id ∧ se.name = name)) ∧
    (SessionRepository.get_last_weight_for_exercise s name = none ↔
      SessionRepository.joinedSets s name = []) ∧
    (∀ q : ℚ, SessionRepository.get_last_weight_for_exercise s name = some q →
      ∃ r ∈ SessionRepository.joinedSets s name, r.weight = some q ∧
        ∀ r2 ∈ SessionRepository.joinedSets s name,
          r2.created_at ≤ r.created_at) := by
  have htot : ∀ x y : SetRow,
      descCreatedSet x y = true ∨ descCreatedSet y x = true := by
    intro x y
    simp only [descCreatedSet, decide_eq_true_eq]
    exact le_total y.created_at x.created_at
  have htrans : ∀ x y z : SetRow, descCreatedSet x y = true →
      descCreatedSet y z = true → descCreatedSet x z = true := by
    intro x y z h1 h2
    simp only [descCreatedSet, decide_eq_true_eq] at h1 h2 ⊢
    exact le_trans h2 h1
  refine ⟨?_, ?_, ?_⟩
  · intro r
    simp only [SessionRepository.joinedSets, List.mem_filter, Bool.and_eq_true,
      List.any_eq_true, beq_iff_eq, Option.isSome_iff_exists]
  · by_cases hnil : SessionRepository.joinedSets s name = []
    · have hs : sortBy descCreatedSet (SessionRepository.joinedSets s name) =
          [] := by rw [hnil]; rfl
      rw [SessionRepository.get_last_weight_for_exercise, hs]
      simp [hnil]
    · have hsne : sortBy descCreatedSet (SessionRepository.joinedSets s name) ≠
          [] := fun h => hnil ((sortBy_eq_nil_iff _ _).mp h)
      obtain ⟨r, rest, hr⟩ := List.exists_cons_of_ne_nil hsne
      have hrmem : r ∈ SessionRepository.joinedSets s name := by
        have h0 : r ∈ r :: rest := List.mem_cons_self r rest
        rw [← hr] at h0
        exact (mem_sortBy descCreatedSet _ r).mp h0
      have hws : r.weight.isSome = true := by
        simp only [SessionRepository.joinedSets, List.mem_filter,
          Bool.and_eq_true] at hrmem
        exact hrmem.2.1
      obtain ⟨q, hq⟩ := Option.isSome_iff_exists.mp hws
      rw [SessionRepository.get_last_weight_for_exercise, hr]
      simp [hq, hnil]
  · intro q hq
    by_cases hnil : SessionRepository.joinedSets s name = []
    · rw [SessionRepository.get_last_weight_for_exercise] at hq
      rw [hnil] at hq
      simp [sortBy] at hq
    · have hsne : sortBy descCreatedSet (SessionRepository.joinedSets s name) ≠
          [] := fun h => hnil ((sortBy_eq_nil_iff _ _).mp h)
      obtain ⟨r, rest, hr⟩ := List.exists_cons_of_ne_nil hsne
      have hrmem : r ∈ SessionRepository.joinedSets s name := by
        have h0 : r ∈ r :: rest := List.mem_cons_self r rest
        rw [← hr] at h0
        exact (mem_sortBy descCreatedSet _ r).mp h0
      have hget : SessionRepository.get_last_weight_for_exercise s name =
          r.weight := by
        rw [SessionRepository.get_last_weight_for_exercise, hr]
        rfl
      refine ⟨r, hrmem, by rw [← hget, hq], ?_⟩
      intro r2 hr2mem
      have hle := sortBy_head_le descCreatedSet htot htrans
        (SessionRepository.joinedSets s name) r rest hr r2 hr2mem
      simpa [descCreatedSet, decide_eq_true_eq] using hle

/-- Witness for C8: in the witness store, with Squats sets of weights 135,
155, 175 inserted in that order, the query returns 175 and 175 belongs to
a matching set of maximal created_at. -/
theorem last_weight_for_exercise_witness :
    SessionRepository.get_last_weight_for_exercise storeW "Squats" =
      some 175 ∧
    (∃ r ∈ SessionRepository.joinedSets storeW "Squats", r.weight = some 175 ∧
      ∀ r2 ∈ SessionRepository.joinedSets storeW "Squats",
        r2.created_at ≤ r.created_at) :=
  ⟨by rfl,
   (last_weight_for_exercise_spec storeW "Squats").2.2 175 (by rfl)⟩

/-- C9 counterexample: the stored string whose JSON decoding is
badTimerJson (valid JSON, all five fields present, but a malformed
start_time timestamp) does not parse into a valid TimerState, yet
get_timer_state raises an uncaught ValueError (datetime.fromisoformat)
instead of returning the "no saved state" fallback: the except clause in
src/repositories.py line 498 catches only json.JSONDecodeError and
KeyError. -/
theorem timer_parse_fallback_counterexample :
    get_timer_state (Except.ok badTimerJson) =
      Except.error PyError.valueError := by
  rfl

/-- C9 amended: reading the persisted timer state returns "no saved
state" when the stored string is not valid JSON or when a required field
is missing (the two caught exception classes), and decodes successfully
otherwise; but a stored value whose timestamp fields are present and
truthy yet malformed (ValueError) or of a non-string type (TypeError)
raises an uncaught exception rather than falling back. -/
theorem timer_parse_fallback_amended :
    (∀ e : Unit, get_timer_state (Except.error e) = Except.ok none) ∧
    (∀ data : Json, buildTimerState data = Except.error PyError.keyError →
      get_timer_state (Except.ok data) = Except.ok none) ∧
    (∀ (data : Json) (e : PyError), buildTimerState data = Except.error e →
      e ≠ PyError.keyError → e ≠ PyError.jsonDecodeError →
      get_timer_state (Except.ok data) = Except.error e) ∧
    (∀ (data : Json) (st : RawTimerState),
      buildTimerState data = Except.ok st →
      get_timer_state (Except.ok data) = Except.ok (some st)) := by
  refine ⟨fun e => rfl, ?_, ?_, ?_⟩
  · intro data h
    simp [get_timer_state, h, Except.map]
  · intro data e h hk hj
    cases e with
    | jsonDecodeError => exact absurd rfl hj
    | keyError => exact absurd rfl hk
    | valueError => simp [get_timer_state, h, Except.map]
    | typeError => simp [get_timer_state, h, Except.map]
  · intro data st h
    simp [get_timer_state, h, Except.map]

/-- Witness for C9's amended theorem: a JSON-decode failure and a missing
field fall back to none, the malformed timestamp raises ValueError, and a
well-formed document decodes. -/
theorem timer_parse_fallback_amended_witness :
    get_timer_state (Except.error ()) = Except.ok none ∧
    get_timer_state (Except.ok (Json.obj [])) = Except.ok none ∧
    get_timer_state (Except.ok badTimerJson) =
      Except.error PyError.valueError ∧
    get_timer_state (Except.ok goodTimerJson) =
      Except.ok (some { is_running := Json.bool true
                        is_paused := Json.bool false
                        start_time := some 100
                        pause_time := none
                        accumulated_seconds := Json.num 12 }) :=
  ⟨timer_parse_fallback_amended.1 (),
   timer_parse_fallback_amended.2.1 (Json.obj []) (by rfl),
   timer_parse_fallback_amended.2.2.1 badTimerJson PyError.valueError (by rfl)
     (by simp) (by simp),
   timer_parse_fallback_amended.2.2.2 goodTimerJson _ (by rfl)⟩

/-- C6: template save replaces children wholesale.  For a persisted
template, saving an in-memory copy whose exercise list has dropped a
previously persisted child row ex0 succeeds, and after reloading the
template by id, no child with ex0's id remains while every exercise of the
in-memory list is present exactly once.  (The freshness hypothesis says a
child id may already exist in the store only as a row of this template —
the rows the save deletes — since re-inserting an id owned by another
template would violate the primary key.) -/
theorem template_save_replacement (s : Store) (t : WorkoutTemplate)
    (ex0 : TemplateExerciseRow)
    (htab : s.data_tables = true)
    (hpersisted : s.workout_templates.any (fun r => r.id == t.id) = true)
    (_hex0mem : ex0 ∈ s.template_exercises)
    (_hex0own : ex0.template_id = t.id)
    (hdropped : t.exercises.all (fun e => !(e.id == ex0.id)) = true)
    (hfreshC : t.exercises.all (fun e => s.template_exercises.all (fun r =>
      r.template_id == t.id || !(r.id == e.id))) = true)
    (hnodup : nodupBy (fun e : TemplateExercise => e.id) t.exercises = true) :
    (TemplateRepository.save s t).2 = none ∧
    ∃ t1, TemplateRepository.get_by_id (TemplateRepository.save s t).1 t.id =
        some t1 ∧
      (∀ e1 ∈ t1.exercises, ¬(e1.id = ex0.id)) ∧
      (∀ e ∈ t.exercises,
        (t1.exercises.map (fun e1 => e1.id)).count e.id = 1) := by
  have hfreshC2 : ∀ e ∈ t.exercises, ∀ r ∈ s.template_exercises,
      ¬(r.template_id = t.id) → ¬(r.id = e.id) := by
    intro e he r hr hnt hid
    have hrow := List.all_eq_true.mp (List.all_eq_true.mp hfreshC e he) r hr
    simp only [Bool.or_eq_true] at hrow
    rcases hrow with h1 | h2
    · exact hnt (beq_iff_eq.mp h1)
    · rw [beq_iff_eq.mpr hid] at h2
      simp at h2
  have hnodup2 := nodupBy_pairwise _ _ hnodup
  have hsave := template_save_exec s t htab hfreshC2 hnodup2
  refine ⟨by rw [hsave], ?_⟩
  rw [hsave]
  have hupd : ∀ a : TemplateRow,
      ((if a.id == t.id then { a with name := t.name } else a).id == t.id) =
        (a.id == t.id) := by
    intro a
    by_cases h : a.id == t.id <;> simp [h]
  obtain ⟨r0, hr0⟩ := find?_some_of_any (fun r => r.id == t.id)
    s.workout_templates hpersisted
  have hfind : (templateSavedStore s t).workout_templates.find?
      (fun r => r.id == t.id) =
      some (if r0.id == t.id then { r0 with name := t.name } else r0) := by
    have hwt : (templateSavedStore s t).workout_templates =
        s.workout_templates.map (fun r =>
          if r.id == t.id then { r with name := t.name } else r) := by
      simp only [templateSavedStore]
      rw [if_pos hpersisted]
    rw [hwt, find?_map_key _ _ hupd, hr0]
    rfl
  have hload := template_get_by_id_eq (templateSavedStore s t) t.id _ hfind
  have hall : ∀ x ∈ t.exercises.map (fun e =>
      (⟨e.id, t.id, e.name, e.order_index,
        boolToInt e.uses_weight⟩ : TemplateExerciseRow)),
      (x.template_id == t.id) = true := by
    intro x hx
    obtain ⟨e, _, rfl⟩ := List.mem_map.mp hx
    simp
  have hchild : (templateSavedStore s t).template_exercises.filter
      (fun r => r.template_id == t.id) =
      t.exercises.map (fun e =>
        ⟨e.id, t.id, e.name, e.order_index, boolToInt e.uses_weight⟩) := by
    have hte : (templateSavedStore s t).template_exercises =
        s.template_exercises.filter (fun r => !(r.template_id == t.id)) ++
        t.exercises.map (fun e =>
          ⟨e.id, t.id, e.name, e.order_index, boolToInt e.uses_weight⟩) := rfl
    rw [hte, List.filter_append, filter_not_filter_nil,
      filter_of_all_true _ _ hall, List.nil_append]
  rw [hchild] at hload
  refine ⟨_, hload, ?_, ?_⟩
  · intro e1 he1
    obtain ⟨row, hrow, rfl⟩ := List.mem_map.mp he1
    have hrow2 := (mem_sortBy leOrderTE _ row).mp hrow
    obtain ⟨e, he, rfl⟩ := List.mem_map.mp hrow2
    have hd := List.all_eq_true.mp hdropped e he
    simp only [Bool.not_eq_true'] at hd
    intro hid
    simp only [TemplateRepository.rowToExercise] at hid
    rw [beq_iff_eq.mpr hid] at hd
    simp at hd
  · intro e he
    have h1 : ((sortBy leOrderTE (t.exercises.map (fun e =>
        (⟨e.id, t.id, e.name, e.order_index,
          boolToInt e.uses_weight⟩ : TemplateExerciseRow)))).map
        TemplateRepository.rowToExercise).map (fun e1 => e1.id) =
        (sortBy leOrderTE (t.exercises.map (fun e =>
          (⟨e.id, t.id, e.name, e.order_index,
            boolToInt e.uses_weight⟩ : TemplateExerciseRow)))).map
          (fun row => row.id) := by
      rw [List.map_map]
      simp [TemplateRepository.rowToExercise, Function.comp]
    have h2 := (sortBy_perm leOrderTE (t.exercises.map (fun e =>
        (⟨e.id, t.id, e.name, e.order_index,
          boolToInt e.uses_weight⟩ : TemplateExerciseRow)))).map
        (fun row : TemplateExerciseRow => row.id)
    have h3 : (t.exercises.map (fun e =>
        (⟨e.id, t.id, e.name, e.order_index,
          boolToInt e.uses_weight⟩ : TemplateExerciseRow))).map
        (fun row => row.id) = t.exercises.map (fun e => e.id) := by
      rw [List.map_map]
      rfl
    rw [h1, h2.count_eq, h3]
    have hnd : (t.exercises.map (fun e => e.id)).Nodup :=
      List.pairwise_map.mpr hnodup2
    exact List.count_eq_one_of_mem hnd (List.mem_map_of_mem _ he)

/-- Witness for C6: template t1 persisted with children te1, te2; the
in-memory copy drops te2 and renames the template; after save and reload
te2 is gone and te1 appears exactly once. -/
theorem template_save_replacement_witness :
    (TemplateRepository.save storeC6 tC6).2 = none ∧
    ∃ t1, TemplateRepository.get_by_id
        (TemplateRepository.save storeC6 tC6).1 "t1" = some t1 ∧
      (∀ e1 ∈ t1.exercises, ¬(e1.id = "te2")) ∧
      (∀ e ∈ tC6.exercises,
        (t1.exercises.map (fun e1 => e1.id)).count e.id = 1) :=
  template_save_replacement storeC6 tC6 ⟨"te2", "t1", "Bench Press", 1, 1⟩
    (by rfl) (by rfl) (by decide) (by rfl) (by rfl) (by rfl) (by rfl)

/-- C3: aggregate round trip.  For every integrity-satisfying store and
every constructed (fresh, well-formed) Template aggregate, save followed
by getById on the resulting store returns the aggregate with every field
equal and every child in the same order; likewise for every constructed
Session aggregate persisted through save plus per-child save_exercise and
save_set calls. -/
theorem aggregate_round_trip :
    (∀ (s : Store) (t : WorkoutTemplate),
      Store.wfB s = true → templateAggOk s t = true →
      (TemplateRepository.save s t).2 = none ∧
      TemplateRepository.get_by_id (TemplateRepository.save s t).1 t.id =
        some t) ∧
    (∀ (s : Store) (sess : WorkoutSession),
      Store.wfB s = true → sessionAggOk s sess = true →
      (SessionRepository.saveAggregate s sess).2 = none ∧
      SessionRepository.get_by_id (SessionRepository.saveAggregate s sess).1
        sess.id = some sess) := by
  constructor
  · intro s t hwf hagg
    simp only [templateAggOk, Bool.and_eq_true] at hagg
    obtain ⟨⟨⟨⟨⟨htab, hfreshT⟩, hback⟩, hfreshC⟩, hnodup⟩, hsorted⟩ := hagg
    have hfreshT2 : s.workout_templates.any (fun r => r.id == t.id) = false := by
      simpa using hfreshT
    have hback2 : ∀ e ∈ t.exercises, e.template_id = t.id := fun e he =>
      beq_iff_eq.mp (List.all_eq_true.mp hback e he)
    have hfreshC2 : ∀ e ∈ t.exercises, ∀ r ∈ s.template_exercises,
        ¬(r.id = e.id) := by
      intro e he r hr hid
      have hany : s.template_exercises.any (fun r => r.id == e.id) = false := by
        simpa using List.all_eq_true.mp hfreshC e he
      have : s.template_exercises.any (fun r => r.id == e.id) = true :=
        List.any_eq_true.mpr ⟨r, hr, beq_iff_eq.mpr hid⟩
      rw [hany] at this
      simp at this
    have hnodup2 := nodupBy_pairwise _ _ hnodup
    have hsave := template_save_exec s t htab
      (fun e he r hr _ => hfreshC2 e he r hr) hnodup2
    refine ⟨by rw [hsave], ?_⟩
    rw [hsave]
    have hwt : (templateSavedStore s t).workout_templates =
        s.workout_templates ++ [⟨t.id, t.name, t.created_at⟩] := by
      simp only [templateSavedStore]
      rw [if_neg (by rw [hfreshT2]; simp)]
    have hfindnone : s.workout_templates.find? (fun r => r.id == t.id) =
        none := by
      rw [List.find?_eq_none]
      intro x hx hpx
      have hanytrue : s.workout_templates.any (fun r => r.id == t.id) = true :=
        List.any_eq_true.mpr ⟨x, hx, hpx⟩
      rw [hfreshT2] at hanytrue
      simp at hanytrue
    have hfind : (templateSavedStore s t).workout_templates.find?
        (fun r => r.id == t.id) = some ⟨t.id, t.name, t.created_at⟩ := by
      rw [hwt, find?_append_left_none _ _ _ hfindnone]
      simp [List.find?]
    have hload := template_get_by_id_eq (templateSavedStore s t) t.id _ hfind
    have hall : ∀ x ∈ t.exercises.map (fun e =>
        (⟨e.id, t.id, e.name, e.order_index,
          boolToInt e.uses_weight⟩ : TemplateExerciseRow)),
        (x.template_id == t.id) = true := by
      intro x hx
      obtain ⟨e, _, rfl⟩ := List.mem_map.mp hx
      simp
    have hchild : (templateSavedStore s t).template_exercises.filter
        (fun r => r.template_id == t.id) =
        t.exercises.map (fun e =>
          ⟨e.id, t.id, e.name, e.order_index, boolToInt e.uses_weight⟩) := by
      have hte : (templateSavedStore s t).template_exercises =
          s.template_exercises.filter (fun r => !(r.template_id == t.id)) ++
          t.exercises.map (fun e =>
            ⟨e.id, t.id, e.name, e.order_index, boolToInt e.uses_weight⟩) := rfl
      rw [hte, List.filter_append, filter_not_filter_nil,
        filter_of_all_true _ _ hall, List.nil_append]
    rw [hchild] at hload
    have hsorted2 : sortedByB leOrderTE (t.exercises.map (fun e =>
        (⟨e.id, t.id, e.name, e.order_index,
          boolToInt e.uses_weight⟩ : TemplateExerciseRow))) = true := by
      rw [sortedByB_map (fun a b : TemplateExercise =>
        decide (a.order_index ≤ b.order_index)) leOrderTE _ ?_]
      · exact hsorted
      · intro x y
        simp [leOrderTE]
    rw [sortBy_of_sortedByB leOrderTE _ hsorted2] at hload
    have hmapback : (t.exercises.map (fun e =>
        (⟨e.id, t.id, e.name, e.order_index,
          boolToInt e.uses_weight⟩ : TemplateExerciseRow))).map
        TemplateRepository.rowToExercise = t.exercises := by
      rw [List.map_map]
      refine map_eq_self_of_mem _ _ ?_
      intro e he
      have hb := hback2 e he
      obtain ⟨eid, etid, ename, eoi, euw⟩ := e
      simp only at hb
      simp [Function.comp, TemplateRepository.rowToExercise,
        intToBool_boolToInt, hb]
    rw [hmapback] at hload
    exact hload
  · intro s sess hwf hagg
    simp only [sessionAggOk, Bool.and_eq_true] at hagg
    obtain ⟨⟨⟨⟨⟨⟨⟨⟨⟨⟨htab, hfreshSess⟩, hlink⟩, hback⟩, hfreshE⟩, hnodupE⟩,
      hsortedE⟩, hown⟩, hsortedSets⟩, hfreshSets⟩, hnodupSets⟩ := hagg
    have hfreshSess2 : s.workout_sessions.any (fun r => r.id == sess.id) =
        false := by simpa using hfreshSess
    have hback2 : ∀ ex ∈ sess.exercises, ex.session_id = sess.id :=
      fun ex hex => beq_iff_eq.mp (List.all_eq_true.mp hback ex hex)
    have hfreshE2 : ∀ ex ∈ sess.exercises, ∀ r ∈ s.session_exercises,
        ¬(r.id = ex.id) := by
      intro ex hex r hr hid
      have hany : s.session_exercises.any (fun r => r.id == ex.id) = false := by
        simpa using List.all_eq_true.mp hfreshE ex hex
      have : s.session_exercises.any (fun r => r.id == ex.id) = true :=
        List.any_eq_true.mpr ⟨r, hr, beq_iff_eq.mpr hid⟩
      rw [hany] at this
      simp at this
    have hnodupE2 := nodupBy_pairwise _ _ hnodupE
    have hown2 : ∀ ex ∈ sess.exercises, ∀ w ∈ ex.sets,
        w.session_exercise_id = ex.id := by
      intro ex hex w hw
      exact beq_iff_eq.mp
        (List.all_eq_true.mp (List.all_eq_true.mp hown ex hex) w hw)
    have hsortedSets2 : ∀ ex ∈ sess.exercises,
        sortedByB (fun a b : Set => decide (a.created_at ≤ b.created_at))
          ex.sets = true := fun ex hex => List.all_eq_true.mp hsortedSets ex hex
    have hfreshSets2 : ∀ w ∈ sess.exercises.flatMap (fun ex => ex.sets),
        ∀ r ∈ s.sets, ¬(r.id = w.id) := by
      intro w hw r hr hid
      have hany : s.sets.any (fun r => r.id == w.id) = false := by
        simpa using List.all_eq_true.mp hfreshSets w hw
      have : s.sets.any (fun r => r.id == w.id) = true :=
        List.any_eq_true.mpr ⟨r, hr, beq_iff_eq.mpr hid⟩
      rw [hany] at this
      simp at this
    have hnodupSets2 := nodupBy_pairwise _ _ hnodupSets
    have hsaveSess : SessionRepository.save s sess =
        ({ s with workout_sessions := s.workout_sessions ++
          [SessionRepository.sessionRowOf sess] }, none) := by
      have hlink2 : templateLinkOk s
          (SessionRepository.sessionRowOf sess).template_id = true := hlink
      have hany : s.workout_sessions.any
          (fun r => r.id == (SessionRepository.sessionRowOf sess).id) =
          false := hfreshSess2
      have hstep : execStmt s
          (Stmt.upsertSession (SessionRepository.sessionRowOf sess)) =
          .ok { s with workout_sessions := s.workout_sessions ++
            [SessionRepository.sessionRowOf sess] } := by
        simp only [execStmt, htab, hlink2, hany, Bool.not_true]
        simp
      simp only [SessionRepository.save, Database.transaction, execStmts, hstep]
    have hexers := saveExercises_exec sess.exercises
      { s with workout_sessions := s.workout_sessions ++
        [SessionRepository.sessionRowOf sess] }
      htab
      (by
        intro ex hex
        show (s.workout_sessions ++
          [SessionRepository.sessionRowOf sess]).any
            (fun r => r.id == ex.session_id) = true
        rw [hback2 ex hex]
        refine List.any_eq_true.mpr ?_
        refine ⟨SessionRepository.sessionRowOf sess, List.mem_append_right _
          (List.mem_singleton.mpr rfl), ?_⟩
        simp [SessionRepository.sessionRowOf])
      (fun ex hex r hr => hfreshE2 ex hex r hr)
      hnodupE2
      hown2
      (fun ex hex w hw r hr =>
        hfreshSets2 w (List.mem_flatMap.mpr ⟨ex, hex, hw⟩) r hr)
      hnodupSets2
    have hagg2 : SessionRepository.saveAggregate s sess =
        (sessionSavedStore s sess, none) := by
      simp only [SessionRepository.saveAggregate, hsaveSess, hexers,
        sessionSavedStore]
    refine ⟨by rw [hagg2], ?_⟩
    rw [hagg2]
    have hfindnone : s.workout_sessions.find? (fun r => r.id == sess.id) =
        none := by
      rw [List.find?_eq_none]
      intro x hx hpx
      have hanytrue : s.workout_sessions.any (fun r => r.id == sess.id) = true :=
        List.any_eq_true.mpr ⟨x, hx, hpx⟩
      rw [hfreshSess2] at hanytrue
      simp at hanytrue
    have hfind : (sessionSavedStore s sess).workout_sessions.find?
        (fun r => r.id == sess.id) =
        some (SessionRepository.sessionRowOf sess) := by
      show (s.workout_sessions ++
        [SessionRepository.sessionRowOf sess]).find? _ = _
      rw [find?_append_left_none _ _ _ hfindnone]
      simp [List.find?, SessionRepository.sessionRowOf]
    have hA : ∀ se ∈ s.session_exercises, (se.session_id == sess.id) = false := by
      intro se hse
      cases hb : (se.session_id == sess.id) with
      | false => rfl
      | true =>
        have hfk := wfB_se_fk s hwf se hse
        rw [beq_iff_eq.mp hb] at hfk
        rw [hfreshSess2] at hfk
        simp at hfk
    have hfilterE : (sessionSavedStore s sess).session_exercises.filter
        (fun r => r.session_id == sess.id) =
        sess.exercises.map SessionRepository.exerciseRowOf := by
      show (s.session_exercises ++
        sess.exercises.map SessionRepository.exerciseRowOf).filter _ = _
      rw [List.filter_append, filter_eq_nil_of_all_false _ _ hA,
        List.nil_append]
      refine filter_of_all_true _ _ ?_
      intro x hx
      obtain ⟨ex, hex, rfl⟩ := List.mem_map.mp hx
      simp [SessionRepository.exerciseRowOf, hback2 ex hex]
    have hsortE : sortBy leOrderSE
        (sess.exercises.map SessionRepository.exerciseRowOf) =
        sess.exercises.map SessionRepository.exerciseRowOf := by
      refine sortBy_of_sortedByB _ _ ?_
      rw [sortedByB_map (fun a b : SessionExercise =>
        decide (a.order_index ≤ b.order_index)) leOrderSE _ ?_]
      · exact hsortedE
      · intro x y
        simp [leOrderSE, SessionRepository.exerciseRowOf]
    have hB : ∀ r ∈ s.sets, ∀ ex ∈ sess.exercises,
        (r.session_exercise_id == ex.id) = false := by
      intro r hr ex hex
      cases hb : (r.session_exercise_id == ex.id) with
      | false => rfl
      | true =>
        have hfk := wfB_sets_fk s hwf r hr
        obtain ⟨se, hse, hseid⟩ := List.any_eq_true.mp hfk
        have : se.id = ex.id := by
          rw [beq_iff_eq.mp hseid, beq_iff_eq.mp hb]
        exact absurd this (hfreshE2 ex hex se hse)
    have hloadSets : ∀ ex ∈ sess.exercises,
        SessionRepository.loadSets (sessionSavedStore s sess) ex.id =
          ex.sets := by
      intro ex hex
      have hfilterS : (sessionSavedStore s sess).sets.filter
          (fun r => r.session_exercise_id == ex.id) =
          ex.sets.map SessionRepository.setRowOf := by
        show (s.sets ++ (sess.exercises.flatMap (fun e => e.sets)).map
          SessionRepository.setRowOf).filter _ = _
        rw [List.filter_append,
          filter_eq_nil_of_all_false _ _ (fun r hr => hB r hr ex hex),
          List.nil_append]
        exact filter_flatMap_sets sess.exercises ex hex hown2 hnodupE2
      rw [SessionRepository.loadSets, hfilterS]
      have hsortS : sortBy leCreatedSet
          (ex.sets.map SessionRepository.setRowOf) =
          ex.sets.map SessionRepository.setRowOf := by
        refine sortBy_of_sortedByB _ _ ?_
        rw [sortedByB_map (fun a b : Set =>
          decide (a.created_at ≤ b.created_at)) leCreatedSet _ ?_]
        · exact hsortedSets2 ex hex
        · intro x y
          simp [leCreatedSet, SessionRepository.setRowOf]
      rw [hsortS, List.map_map]
      exact map_eq_self_of_mem _ _ (fun w _ => rfl)
    have hloadE : SessionRepository.loadExercises (sessionSavedStore s sess)
        sess.id = sess.exercises := by
      rw [SessionRepository.loadExercises, hfilterE, hsortE, List.map_map]
      refine map_eq_self_of_mem _ _ ?_
      intro ex hex
      have hls := hloadSets ex hex
      obtain ⟨eid, esid, en, eoi, euw, esets⟩ := ex
      simp only at hls
      simp [Function.comp, SessionRepository.exerciseRowOf,
        intToBool_boolToInt, hls]
    have hget : SessionRepository.get_by_id (sessionSavedStore s sess)
        sess.id = some { SessionRepository.rowToSession
          (SessionRepository.sessionRowOf sess) with
            exercises := SessionRepository.loadExercises
              (sessionSavedStore s sess) sess.id } := by
      simp [SessionRepository.get_by_id, hfind]
    rw [hloadE] at hget
    exact hget


/-- Witness for C3: both round trips at concrete aggregates on an empty
migrated store. -/
theorem aggregate_round_trip_witness :
    ((TemplateRepository.save storeC3 tW3).2 = none ∧
      TemplateRepository.get_by_id (TemplateRepository.save storeC3 tW3).1
        tW3.id = some tW3) ∧
    ((SessionRepository.saveAggregate storeC3 sessW3).2 = none ∧
      SessionRepository.get_by_id
        (SessionRepository.saveAggregate storeC3 sessW3).1 sessW3.id =
        some sessW3) :=
  ⟨aggregate_round_trip.1 storeC3 tW3 (by rfl) (by rfl),
   aggregate_round_trip.2 storeC3 sessW3 (by rfl) (by rfl)⟩

/-- C5: migration idempotence.  If apply_migrations completes successfully
once (no error), running it again on the resulting store leaves the
schema_version ledger and the whole store unchanged, executes no migration
body (the applied-version list of the second run is empty), and raises no
error. -/
theorem migrations_idempotent (supply supply2 : Nat → String) (now now2 : Int)
    (s s1 : Store) (applied : List Nat)
    (h : apply_migrations supply now s = ((s1, none), applied)) :
    apply_migrations supply2 now2 s1 = ((s1, none), []) := by
  have key : s1.schema_version_table = true ∧ 2 ≤ get_current_version s1 := by
    have h0 : apply_migrations supply now s =
        runPending (MIGRATIONS supply now)
          (get_current_version { s with schema_version_table := true }) now
          { s with schema_version_table := true } := rfl
    rw [h0] at h
    simp only [MIGRATIONS, runPending] at h
    by_cases hv1 :
        get_current_version { s with schema_version_table := true } < 1
    · rw [if_pos hv1] at h
      have hm1 : migration_001_initial_schema
          { s with schema_version_table := true } =
          ({ s with schema_version_table := true, data_tables := true },
            none) := rfl
      rw [hm1] at h
      simp only [] at h
      rcases hins1 : Database.transaction [Stmt.insertSchemaVersion 1 now]
          { s with schema_version_table := true, data_tables := true }
        with ⟨sC, e1⟩
      rw [hins1] at h
      cases e1 with
      | some err => simp at h
      | none =>
        simp only [] at h
        have hsC := insert_version_ok _ _ 1 now hins1
        have hv2 :
            get_current_version { s with schema_version_table := true } < 2 :=
          Nat.lt_of_lt_of_le hv1 (by omega)
        rw [if_pos hv2] at h
        rcases hm2 : migration_002_seed_templates supply now sC with ⟨sD, e2⟩
        rw [hm2] at h
        cases e2 with
        | some err => simp at h
        | none =>
          simp only [] at h
          rcases hins2 : Database.transaction
              [Stmt.insertSchemaVersion 2 now] sD with ⟨sE, e3⟩
          rw [hins2] at h
          cases e3 with
          | some err => simp at h
          | none =>
            simp only [] at h
            have heq : sE = s1 := congrArg (fun p => p.1.1) h
            have hsE := insert_version_ok _ _ 2 now hins2
            have hDframe := execStmts_ledger_frame (seedStmts supply now)
              sC sD (seedStmts_ledgerFree supply now)
              (transaction_ok_exec _ _ _ hm2)
            have hCflag : sC.schema_version_table = true := by
              rw [hsC]
            have hflag : s1.schema_version_table = true := by
              rw [← heq, hsE]
              exact hDframe.2.trans hCflag
            refine ⟨hflag, ?_⟩
            have hmem : ((2 : Nat), now) ∈ s1.schema_version := by
              rw [← heq, hsE]
              exact List.mem_append_right _ (List.mem_singleton.mpr rfl)
            exact get_current_version_ge s1 2 now hflag hmem
    · rw [if_neg hv1] at h
      by_cases hv2 :
          get_current_version { s with schema_version_table := true } < 2
      · rw [if_pos hv2] at h
        rcases hm2 : migration_002_seed_templates supply now
            { s with schema_version_table := true } with ⟨sD, e2⟩
        rw [hm2] at h
        cases e2 with
        | some err => simp at h
        | none =>
          simp only [] at h
          rcases hins2 : Database.transaction
              [Stmt.insertSchemaVersion 2 now] sD with ⟨sE, e3⟩
          rw [hins2] at h
          cases e3 with
          | some err => simp at h
          | none =>
            simp only [] at h
            have heq : sE = s1 := congrArg (fun p => p.1.1) h
            have hsE := insert_version_ok _ _ 2 now hins2
            have hDframe := execStmts_ledger_frame (seedStmts supply now)
              { s with schema_version_table := true } sD
              (seedStmts_ledgerFree supply now)
              (transaction_ok_exec _ _ _ hm2)
            have hflag : s1.schema_version_table = true := by
              rw [← heq, hsE]
              exact hDframe.2
            refine ⟨hflag, ?_⟩
            have hmem : ((2 : Nat), now) ∈ s1.schema_version := by
              rw [← heq, hsE]
              exact List.mem_append_right _ (List.mem_singleton.mpr rfl)
            exact get_current_version_ge s1 2 now hflag hmem
      · rw [if_neg hv2] at h
        have heq : ({ s with schema_version_table := true } : Store) = s1 :=
          congrArg (fun p => p.1.1) h
        constructor
        · rw [← heq]
        · rw [← heq]
          omega
  obtain ⟨hflag, hge⟩ := key
  have h2 : apply_migrations supply2 now2 s1 =
      runPending (MIGRATIONS supply2 now2)
        (get_current_version { s1 with schema_version_table := true }) now2
        { s1 with schema_version_table := true } := rfl
  rw [h2, set_flag_id s1 hflag]
  simp only [MIGRATIONS, runPending]
  rw [if_neg (by omega), if_neg (by omega)]

/-- Witness for C5: applying the migrations to the empty store succeeds
and a second run is the identity with an empty applied list. -/
theorem migrations_idempotent_witness :
    apply_migrations (fun n => String.append "u" (Nat.repr n)) 7
        (apply_migrations (fun n => String.append "u" (Nat.repr n)) 3
          emptyStore).1.1 =
      (((apply_migrations (fun n => String.append "u" (Nat.repr n)) 3
          emptyStore).1.1, none), []) :=
  migrations_idempotent (fun n => String.append "u" (Nat.repr n))
    (fun n => String.append "u" (Nat.repr n)) 3 7 emptyStore
    (apply_migrations (fun n => String.append "u" (Nat.repr n)) 3
      emptyStore).1.1
    (apply_migrations (fun n => String.append "u" (Nat.repr n)) 3
      emptyStore).2
    (by rfl)

end IronLog
